import Mathlib

/-!
Verification of the ffmpeg-cnvt command compiler (src/ffmpeg-cnvt.py).

This file gives a shallow embedding of the option-validation engine, the
stream-mapping compiler, the geometry resolver and the command/suffix
assembler of ffmpeg-cnvt.py, and proves or refutes the frozen claims about
them.  Conventions used throughout:

* Python machine integers are modelled as Lean Int; probed stream counts as
  Nat.  Python float arithmetic in the geometry resolver is modelled as
  exact rational arithmetic over Rat; no claim proved here depends on a
  rounded float value.  Python int() truncation toward zero is pyTrunc.
* An argparse option that may be absent is an Option, or an Int/String
  where 0 resp. the empty string stands for an absent value exactly when
  every use of the option in the source is guarded by Python truthiness.
* Python exceptions are modelled by Except String; the per-file try/except
  of process_input maps a raised exception to an error outcome for that
  file (error counter incremented once, batch continues).
* External collaborators (ffprobe, the filesystem) are modelled as fields
  of the per-file FileInfo record and of Opts (output_isdir); subprocess
  execution is out of scope, matching the specification.
-/

/-- Stream types, in the iteration order of STREAM_TYPES_SHORT in the
source: v, a, s, t, d, where t abbreviates attachment and d data. -/
inductive StreamType : Type
  | v
  | a
  | s
  | t
  | d
deriving DecidableEq, Repr

/-- Short code of a stream type, as in STREAM_TYPES_SHORT (line 78). -/
def StreamType.code : StreamType → String
  | .v => "v"
  | .a => "a"
  | .s => "s"
  | .t => "t"
  | .d => "d"

/-- Long name of a stream type, as paired by STREAM_TYPES_DICT (lines 77-79):
v=video a=audio s=subtitle t=attachment d=data. -/
def StreamType.long : StreamType → String
  | .v => "video"
  | .a => "audio"
  | .s => "subtitle"
  | .t => "attachment"
  | .d => "data"

/-- The list STREAM_TYPES_SHORT (line 78), the order every per-type loop of
the source iterates in. -/
def STREAM_TYPES_SHORT : List StreamType := [.v, .a, .s, .t, .d]

/-- Keys accepted by the -nocopy option: the five stream types plus the
pseudo-keys c (chapters) and m (metadata), see line 176. -/
inductive NoCopyKey : Type
  | st (x : StreamType)
  | chap
  | mdata
deriving DecidableEq, Repr

/-- The parsed argparse namespace, restricted to the fields the compiler
reads.  Stream-typed options parsed with nargs=2/append are lists of pairs;
flag options parsed with choices/append are lists of keys. -/
structure Opts : Type where
  container : Option String
  codec : List (StreamType × String)
  bitrate : List (StreamType × String)
  lang : List (StreamType × String)
  nocopy : List NoCopyKey
  singlestream : List (StreamType × Int)
  convertonly : List StreamType
  addfile : List (StreamType × String)
  addcodec : List (StreamType × String)
  addstream : List (StreamType × Int)
  addfirst : List StreamType
  adddefault : List StreamType
  addlang : List (StreamType × String)
  addlooped : List StreamType
  mono : Bool
  stereo : Bool
  preset : Option String
  tune : Option String
  tier : Option String
  crf : Option Int
  deshake : Bool
  bit8 : Bool
  bit10 : Bool
  sdr : Bool
  hdr : Bool
  hd : Bool
  fhd : Bool
  qhd : Bool
  uhd : Bool
  width : Int
  height : Int
  crop : Option String
  padding : Int
  sequence : Bool
  framerate : String
  nounknown : Bool
  addattach : Option String
  attachtype : String
  shortest : Bool
  duration : String
  overwrite : Bool
  suffix : Bool
  ffmpegbin : String
  output : String
  output_isdir : Bool
deriving Repr

/-- The probe facts for one input file, i.e. everything the external
ffprobe collaborator can report while this file is processed: stream counts
of the primary file, stream counts of the per-type added file, per-stream
codec names (for the primary and the added file), and the geometry facts
width, height and display aspect ratio.  A width/height of none models an
output of ffprobe that int() fails to parse; a dar of none models an aspect
ratio string without a colon, with unparsable floats, or with a zero
denominator, all of which make the source fall back to width/height. -/
structure FileInfo : Type where
  path : String
  counts : StreamType → Nat
  add_counts : StreamType → Nat
  codec_name : StreamType → Nat → String
  add_codec_name : StreamType → Nat → String
  width : Option Int
  height : Option Int
  dar : Option ℚ

/-- stream_type_arg (lines 730-736): first value paired with the stream
type in an argparse pair list, none if absent. -/
def stream_type_arg {α : Type} (l : List (StreamType × α)) (ty : StreamType) : Option α :=
  (l.find? (fun p => decide (p.1 = ty))).map (fun p => p.2)

/-- stream_type_bool (lines 740-743) applied to a flag-style option (a list
of stream type keys): membership test. -/
def stream_type_bool (l : List StreamType) (ty : StreamType) : Bool :=
  decide (ty ∈ l)

/-- stream_type_bool (lines 740-743) applied to a pair-style option (a list
of two-element lists from argparse nargs=2).  In Python the membership test
compares the type code against each two-element list, which is never equal,
so the result is always False.  Call sites: line 403 (codec in suffix_str),
line 578 (bitrate), line 1011 (addfile). -/
def stream_type_bool_pair {α : Type} (_l : List (StreamType × α)) (_ty : StreamType) : Bool :=
  false

/-- nocopy membership, including the pseudo-keys for chapters/metadata. -/
def nocopy_bool (o : Opts) (k : NoCopyKey) : Bool :=
  decide (k ∈ o.nocopy)

/-- Python truthiness of an optional string: set and nonempty. -/
def truthy_opt_str : Option String → Bool
  | some s => decide (s ≠ "")
  | none => false

/-- Python truthiness of an optional int: set and nonzero. -/
def truthy_opt_int : Option Int → Bool
  | some i => decide (i ≠ 0)
  | none => false

/-- AUDIO_CODECS (line 66). -/
def AUDIO_CODECS : List String := ["aac", "ac3", "eac3", "dts", "flac", "opus", "mp3", "wav"]

/-- VIDEO_PRESET_ARGS (line 67). -/
def VIDEO_PRESET_ARGS : List String := ["h264", "h265", "h264nv", "h265nv"]

/-- VIDEO_CRF_ARGS (line 68). -/
def VIDEO_CRF_ARGS : List String := ["h264", "h265", "vp8", "vp9"]

/-- VIDEO_CODECS (line 69) is the set union of the preset and crf lists;
this list has the same membership. -/
def VIDEO_CODECS : List String := ["h264", "h265", "h264nv", "h265nv", "vp8", "vp9"]

/-- SUBTITLE_CODECS (line 70). -/
def SUBTITLE_CODECS : List String := ["ssa", "ass", "dvbsub", "dvdsub", "srt", "sub"]

/-- pad_resolution (lines 436-440): round up to the closest resolution
divisible by padding.  The Python modulo has the sign of the divisor, which
is Int.fmod. -/
def pad_resolution (res padding : Int) : Int :=
  if Int.fmod res padding = 0 then res else res + padding - Int.fmod res padding

/-- video_arg_to_codec (lines 444-449), including the h264n5 branch that
the source spells with a digit 5. -/
def video_arg_to_codec (arg : String) : String :=
  if arg = "h264nv" then "h264"
  else if arg = "h264n5" then "h264"
  else arg

/-- video_codec_to_encoder (lines 458-518).  Line 501 evaluates
args.vbitrate, an attribute the argument parser never defines, so every
call with a non-None codec that passes the validity test raises
AttributeError there; lines 505-516 (pixel format and color space) are
unreachable. -/
def video_codec_to_encoder (codec : Option String) (o : Opts) : Except String (List String) :=
  match codec with
  | none => Except.ok ["copy"]
  | some c =>
    if ¬ (c ∈ VIDEO_CODECS) then Except.error ("Invalid video codec: " ++ c)
    else
      let base :=
        if c = "h264" then ["libx264"]
        else if c = "h265" then ["libx265"]
        else if c = "h264nv" then ["h264_nvenc"]
        else if c = "h265nv" then ["hevc_nvenc"]
        else if c = "vp8" then ["libvpx"]
        else if c = "vp9" then ["libvpx-vp9"]
        else [c]
      let withPreset := base ++
        (match o.preset with
         | some p => if p ≠ "" ∧ c ∈ VIDEO_PRESET_ARGS then ["-preset", p] else []
         | none => [])
      let withCrf := withPreset ++
        (match o.crf with
         | some n => if n ≠ 0 ∧ c ∈ VIDEO_CRF_ARGS then ["-crf", toString n] else []
         | none => [])
      let withTune := withCrf ++
        (match o.tune with
         | some tn => if tn ≠ "" then ["-tune", tn] else []
         | none => [])
      let withTier := withTune ++
        (match o.tier with
         | some ti =>
           if ti ≠ "" then
             (if ti = "main" then ["-no-high-tier"]
              else if ti = "high" then ["-high-tier"]
              else [])
           else []
         | none => [])
      -- Line 501: `if args.vbitrate:` reads an attribute that argparse never
      -- creates, so the call raises before withTier can be returned.
      let _unreachable := withTier
      Except.error ("AttributeError: Namespace object has no attribute vbitrate")

/-- audio_codec_to_encoder (lines 522-547). -/
def audio_codec_to_encoder (codec : Option String) (o : Opts) : Except String (List String) :=
  match codec with
  | none => Except.ok ["copy"]
  | some c =>
    if ¬ (c ∈ AUDIO_CODECS) then Except.error ("Invalid audio codec: " ++ c)
    else
      let base :=
        if c = "opus" then ["opus", "-strict", "-2"]
        else if c = "dts" then ["dca"]
        else if c = "mp3" then ["libmp3lame"]
        else if c = "wav" then ["wavpack"]
        else [c]
      Except.ok (base ++
        (if o.stereo then ["-ac", "2"]
         else if o.mono then ["-ac", "1"]
         else []))

/-- subtitle_codec_to_encoder (lines 551-563). -/
def subtitle_codec_to_encoder (codec : Option String) (_o : Opts) : Except String (List String) :=
  match codec with
  | none => Except.ok ["copy"]
  | some c =>
    if ¬ (c ∈ SUBTITLE_CODECS) then Except.error ("Invalid subtitle codec: " ++ c)
    else
      Except.ok (if c = "sub" then ["subrip"] else [c])

/-- stream_codec_to_encoder (lines 567-582).  The bitrate suffix at lines
578-580 is guarded by stream_type_bool over args.bitrate, a pair list, so
the guard is always False and no -b: tokens are ever appended. -/
def stream_codec_to_encoder (ty : StreamType) (codec : Option String) (o : Opts) :
    Except String (List String) := do
  let base ←
    match ty with
    | .v => video_codec_to_encoder codec o
    | .a => audio_codec_to_encoder codec o
    | .s => subtitle_codec_to_encoder codec o
    | _ => pure []
  pure (base ++
    (if stream_type_bool_pair o.bitrate ty then
       ["-b:" ++ ty.code, (stream_type_arg o.bitrate ty).getD ("")]
     else []))

/-- The dead codec branch of suffix_str (lines 404-430).  It is unreachable
from suffix_str because the guard at line 403 tests stream_type_bool on the
pair list args.codec, which is always False; had it been reached with a
crop anchor set and a nonzero dimension, line 424 evaluates
an attribute named args on the formatted string and raises AttributeError. -/
def suffix_codec_fragment (o : Opts) (ty : StreamType) (width height : Int) :
    Except String String :=
  let c := (stream_type_arg o.codec ty).getD ("")
  let r0 := "_" ++ video_arg_to_codec c
  if ty = .v then
    let r1 := r0 ++ (if o.sdr then "_SDR" else if o.hdr then "_HDR" else "")
    let r2 := r1 ++
      (match o.crf with
       | some n => if n ≠ 0 then "_CRF-" ++ toString n else ""
       | none => "")
    let r3 := r2 ++
      (match o.preset with
       | some p => if p ≠ "" then "_preset-" ++ p else ""
       | none => "")
    let r4 := r3 ++
      (match o.tune with
       | some tn => if tn ≠ "" then "_tune-" ++ tn else ""
       | none => "")
    if width ≠ 0 ∨ height ≠ 0 then
      let r5 := r4 ++ "_" ++ toString width ++ "x" ++ toString height
      if truthy_opt_str o.crop then
        Except.error ("AttributeError: str object has no attribute args")
      else Except.ok r5
    else Except.ok r4
  else if ty = .a then
    Except.ok (r0 ++ (if o.mono then "-1.0" else if o.stereo then "-2.0" else ""))
  else Except.ok r0

/-- suffix_str (lines 396-432): per stream type in STREAM_TYPES_SHORT
order, append a no-TYPE fragment when nocopy is set for the type, else the
codec fragment when the line 403 guard fires (it never does, see
stream_type_bool_pair). -/
def suffix_str (o : Opts) (width height : Int) : Except String String :=
  STREAM_TYPES_SHORT.foldlM
    (fun acc ty =>
      if nocopy_bool o (.st ty) then pure (acc ++ "_no" ++ ty.long)
      else if stream_type_bool_pair o.codec ty then do
        let frag ← suffix_codec_fragment o ty width height
        pure (acc ++ frag)
      else pure acc)
    ""

/-- Python int() on a float, modelled on rationals: truncation toward zero. -/
def pyTrunc (q : ℚ) : Int :=
  q.num.tdiv (q.den : Int)

/-- The color space normalization filter of line 827. -/
def CSC_FILTER : String :=
  "scale=in_color_matrix=auto:in_range=auto:out_color_matrix=bt709:out_range=tv"

/-- The crop filter string of lines 921-922, a literal crop= prefix followed
by width:height:x:y. -/
def crop_filter_string (w h x y : Int) : String :=
  "crop=" ++ (toString w ++ ":" ++ toString h ++ ":" ++ toString x ++ ":" ++ toString y)

/-- The scale filter string of lines 938-939. -/
def scale_filter_string (w h : Int) : String :=
  "scale=" ++ (toString w ++ ":" ++ toString h ++ ",setsar=1:1")

/-- Crop origin per anchor (lines 894-920).  The if/elif chain has no else
branch; an anchor outside the nine known ones leaves xpos unbound and the
later use raises NameError. -/
def crop_position (anchor : String) (iw ih ow oh : Int) : Except String (Int × Int) :=
  if anchor = "center" then Except.ok (pyTrunc (((iw - ow : Int) : ℚ) / 2), pyTrunc (((ih - oh : Int) : ℚ) / 2))
  else if anchor = "topleft" then Except.ok (0, 0)
  else if anchor = "left" then Except.ok (0, pyTrunc (((ih - oh : Int) : ℚ) / 2))
  else if anchor = "bottomleft" then Except.ok (0, ih - oh)
  else if anchor = "bottom" then Except.ok (pyTrunc (((iw - ow : Int) : ℚ) / 2), ih - oh)
  else if anchor = "bottomright" then Except.ok (iw - ow, ih - oh)
  else if anchor = "right" then Except.ok (iw - ow, pyTrunc (((ih - oh : Int) : ℚ) / 2))
  else if anchor = "topright" then Except.ok (iw - ow, 0)
  else if anchor = "top" then Except.ok (pyTrunc (((iw - ow : Int) : ℚ) / 2), 0)
  else Except.error ("NameError: name xpos is not defined")

/-- get_dimensions_from_args (lines 686-708). -/
def get_dimensions_from_args (o : Opts) : Int × Int :=
  if o.hd then (1280, 720)
  else if o.fhd then (1920, 1080)
  else if o.qhd then (2560, 1440)
  else if o.uhd then (3840, 2160)
  else ((if o.width ≠ 0 then o.width else 0), (if o.height ≠ 0 then o.height else 0))

/-- The scale-or-crop section of video_filters_from_args (lines 830-946):
the geometry filter (at most one) with the resolved dimensions.  Division
is exact rational division; the source raises ZeroDivisionError where a
Python float division by zero would occur, which is modelled by the
explicit error branches. -/
def video_filters_geometry (o : Opts) (ow0 oh0 : Int) (fi : FileInfo) :
    Except String (List String × Int × Int) :=
  (if ow0 ≠ 0 ∨ oh0 ≠ 0 then do
      -- lines 839-846: probe and parse height then width
      let ih ← match fi.height with
        | some n => pure n
        | none => Except.error ("Failed to query resolution from input")
      let iw ← match fi.width with
        | some n => pure n
        | none => Except.error ("Failed to query resolution from input")
      -- lines 848-862: display aspect ratio with fallback to width/height;
      -- the fallback divides by input_height outside the inner try
      let input_ar : ℚ ←
        match fi.dar with
        | some q => pure q
        | none =>
          if ih = 0 then Except.error ("ZeroDivisionError: division by zero")
          else pure ((iw : ℚ) / (ih : ℚ))
      if iw = 0 ∨ ih = 0 then Except.error ("Failed to probe input dementions")
      else if iw = ow0 ∨ ih = oh0 then
        -- lines 872-876: dimensions already match, not resizing
        pure (([] : List String), (0 : Int), (0 : Int))
      else do
        -- lines 878-884: derive the missing dimension from the aspect ratio
        let ow1 := if ow0 = 0 then pad_resolution (pyTrunc ((oh0 : ℚ) * input_ar)) o.padding else ow0
        let oh1 ←
          (if oh0 = 0 then
             (if input_ar = 0 then Except.error ("ZeroDivisionError: float division by zero")
              else pure (pad_resolution (pyTrunc ((ow1 : ℚ) / input_ar)) o.padding))
           else pure oh0)
        if truthy_opt_str o.crop then do
          -- lines 886-922: crop filter, dimensions constrained to the input
          let ow2 := if ow1 > iw then iw else ow1
          let oh2 := if oh1 > ih then ih else oh1
          let pos ← crop_position (o.crop.getD ("")) iw ih ow2 oh2
          pure ([crop_filter_string ow2 oh2 pos.1 pos.2], ow2, oh2)
        else do
          -- lines 924-939: scale filter, aspect ratio corrected
          if oh1 = 0 then Except.error ("ZeroDivisionError: division by zero")
          else
            let output_ar : ℚ := (ow1 : ℚ) / (oh1 : ℚ)
            let dims ←
              (if input_ar < output_ar then
                 pure (pad_resolution (pyTrunc ((oh1 : ℚ) * input_ar)) o.padding, oh1)
               else if input_ar > output_ar then
                 (if input_ar = 0 then Except.error ("ZeroDivisionError: float division by zero")
                  else pure (ow1, pad_resolution (pyTrunc ((ow1 : ℚ) / input_ar)) o.padding))
               else pure (ow1, oh1))
            pure ([scale_filter_string dims.1 dims.2], dims.1, dims.2)
     else pure (([] : List String), ow0, oh0))

/-- video_filters_from_args (lines 822-952): the color-space filter when
sdr is requested, then the geometry section, then the deshake filter,
together with the resolved output width/height. -/
def video_filters_from_args (o : Opts) (ow0 oh0 : Int) (fi : FileInfo) :
    Except String (List String × Int × Int) := do
  let vf0 : List String := if o.sdr then [CSC_FILTER] else []
  let mid ← video_filters_geometry o ow0 oh0 fi
  -- lines 948-950: deshake appended last
  pure (vf0 ++ mid.1 ++ (if o.deshake then ["deshake"] else []), mid.2.1, mid.2.2)

/-- audio_filters_from_args (lines 956-960): a placeholder, always empty. -/
def audio_filters_from_args (_o : Opts) (_fi : FileInfo) : List String :=
  []

/-- The separator join used by the source via str.join. -/
def str_join (sep : String) : List String → String
  | [] => ""
  | [x] => x
  | x :: y :: rest => x ++ sep ++ str_join sep (y :: rest)

/-- The per-output-stream token loop of stream_map_args (lines 760-774):
one codec assignment per stream, optionally followed by a disposition pair
(only the first stream keeps a true default flag) and a metadata pair. -/
def codec_tokens (spec : String) (first_stream : Nat) (codec_args : List (List String))
    (metadata : Option String) : Option Bool → List Nat → List String
  | _, [] => []
  | dflt, n :: rest =>
    (["-c:" ++ (spec ++ (":" ++ toString (first_stream + n)))] ++ codec_args.getD n []
      ++ (match dflt with
          | some b => ["-disposition:" ++ (spec ++ (":" ++ toString (first_stream + n))),
                       if b then "default" else "none"]
          | none => [])
      ++ (match metadata with
          | some m => if m ≠ "" then
              ["-metadata:s:" ++ (spec ++ (":" ++ toString (first_stream + n))), m]
            else []
          | none => []))
    ++ codec_tokens spec first_stream codec_args metadata (dflt.map (fun _ => false)) rest

/-- stream_map_args (lines 747-775). -/
def stream_map_args (spec : String) (file_index : Nat) (none_flag : Bool)
    (stream_num : Option Int) (first_stream : Nat) (stream_count : Nat)
    (codec_args : List (List String)) (metadata : Option String)
    (default_stream : Option Bool) : List String :=
  "-map" ::
    (if none_flag then ["-" ++ (toString file_index ++ (":" ++ (spec ++ "?")))]
     else
       (match stream_num with
        | some num => [toString file_index ++ (":" ++ (spec ++ (":" ++ toString num)))]
        | none => [toString file_index ++ (":" ++ (spec ++ "?"))]) ++
       (if codec_args ≠ [] then
          codec_tokens spec first_stream codec_args metadata default_stream
            (List.range stream_count)
        else []))

/-- stream_map (lines 779-818).  fi_codec is the codec_name probe of the
file the map reads from; it is only consulted on the primary/convertonly
path.  Note that the source passes file index 0, args.nocopy and
args.singlestream for the added group as well. -/
def stream_map (primary : Bool) (o : Opts) (ty : StreamType) (input_streams : Nat)
    (first_stream : Nat) (fi_codec : Nat → String) : Except String (List String) := do
  let encoder : Option String :=
    if primary then stream_type_arg o.codec ty else stream_type_arg o.addcodec ty
  let encoder_args ← stream_codec_to_encoder ty encoder o
  let encoder_list : List (List String) :=
    if primary ∧ encoder_args ≠ [] ∧ stream_type_bool o.convertonly ty then
      (List.range input_streams).map (fun k =>
        match encoder with
        | some e => if fi_codec (first_stream + k) = e then ["copy"] else encoder_args
        | none => encoder_args)
    else List.replicate input_streams encoder_args
  let default_stream : Option Bool :=
    if primary then (if stream_type_bool o.adddefault ty then some false else none)
    else (if stream_type_bool o.adddefault ty then some true else none)
  let language : Option String :=
    if primary then stream_type_arg o.lang ty else stream_type_arg o.addlang ty
  let metadata : Option String :=
    match language with
    | some l => if l ≠ "" then some ("language=" ++ l) else none
    | none => none
  pure (stream_map_args ty.code 0 (nocopy_bool o (.st ty))
    (stream_type_arg o.singlestream ty) first_stream input_streams encoder_list
    metadata default_stream)

/-- The added-group stream count of lines 1023-1038: 0 without a truthy
addfile, else the probed count of the added file, reduced to 1 by a valid
addstream index and fatal when the index is out of range. -/
def add_count_checked (o : Opts) (fi : FileInfo) (ty : StreamType) : Except String Nat :=
  match stream_type_arg o.addfile ty with
  | some af =>
    if af ≠ "" then
      let base := fi.add_counts ty
      match stream_type_arg o.addstream ty with
      | some sas =>
        if (sas + 1 : Int) > (base : Int) then
          Except.error ("Requested stream index " ++ toString sas ++ " exceeds stream count "
            ++ toString base ++ " for added input stream " ++ ty.code)
        else Except.ok 1
      | none => Except.ok base
    else Except.ok 0
  | none => Except.ok 0

/-- The primary-group stream count of lines 1040-1049: 0 when nocopy is set
for the type, else the probed count, reduced to 1 by a valid singlestream
index and fatal when the index is out of range. -/
def prim_count_checked (o : Opts) (fi : FileInfo) (ty : StreamType) : Except String Nat :=
  if ¬ nocopy_bool o (.st ty) then
    let base := fi.counts ty
    match stream_type_arg o.singlestream ty with
    | some ss =>
      if (ss + 1 : Int) > (base : Int) then
        Except.error ("Requested stream index " ++ toString ss ++ " exceeds stream count "
          ++ toString base ++ " for primary input stream " ++ ty.code)
      else Except.ok 1
    | none => Except.ok base
  else Except.ok 0

/-- The per-type body of the stream mapping loop (lines 1022-1066). -/
def map_type_stage (o : Opts) (fi : FileInfo) (ty : StreamType) : Except String (List String) := do
  let input_add_streams ← add_count_checked o fi ty
  let input_streams ← prim_count_checked o fi ty
  if ¬ stream_type_bool o.addfirst ty then do
    let p1 ← (if input_streams ≠ 0 then
                stream_map true o ty input_streams 0 (fi.codec_name ty)
              else pure [])
    let p2 ← (if input_add_streams ≠ 0 then
                stream_map false o ty input_add_streams input_streams (fi.add_codec_name ty)
              else pure [])
    pure (p1 ++ p2)
  else do
    let p1 ← (if input_add_streams ≠ 0 then
                stream_map false o ty input_add_streams 0 (fi.add_codec_name ty)
              else pure [])
    -- line 1064 guards the primary map with the probed count, not with the
    -- computed input_streams
    let p2 ← (if fi.counts ty ≠ 0 then
                stream_map true o ty input_streams input_add_streams (fi.codec_name ty)
              else pure [])
    pure (p1 ++ p2)

/-- The stream mapping loop over the types of STREAM_TYPES_SHORT. -/
def map_stage_aux (o : Opts) (fi : FileInfo) : List StreamType → Except String (List String)
  | [] => pure []
  | ty :: rest => do
    let sg ← map_type_stage o fi ty
    let r ← map_stage_aux o fi rest
    pure (sg ++ r)

/-- All mapping directives of the compiled command (lines 1022-1066). -/
def map_stage (o : Opts) (fi : FileInfo) : Except String (List String) :=
  map_stage_aux o fi STREAM_TYPES_SHORT

/-- The secondary input section (lines 1010-1015).  The guard is
stream_type_bool over the pair list args.addfile and is therefore always
False: no -stream_loop or secondary -i token is ever emitted. -/
def secondary_inputs (o : Opts) : List String :=
  STREAM_TYPES_SHORT.foldr
    (fun ty acc =>
      (if stream_type_bool_pair o.addfile ty then
         (if stream_type_bool o.addlooped ty then ["-stream_loop", "-1"] else []) ++
         ["-i", (stream_type_arg o.addfile ty).getD ("")]
       else []) ++ acc)
    []

/-- The leading section of the command (lines 996-1019): binary, overwrite
flag, sequence flags, primary input, secondary inputs, copy_unknown. -/
def header_args (o : Opts) (fi : FileInfo) : List String :=
  [o.ffmpegbin]
  ++ (if o.overwrite then ["-y"] else [])
  ++ (if o.sequence then ["-r", o.framerate, "-f", "image2"] else [])
  ++ ["-i", fi.path]
  ++ secondary_inputs o
  ++ (if ¬ o.nounknown then ["-copy_unknown"] else [])

/-- End-of-encode directives (lines 1093-1099). -/
def length_args (o : Opts) : List String :=
  if o.shortest then ["-shortest"]
  else if o.duration ≠ "" then ["-t", o.duration]
  else []

/-- Chapter strip directive (lines 1102-1103): emitted unless nocopy lists c. -/
def chapter_args (o : Opts) : List String :=
  if ¬ nocopy_bool o .chap then ["-map_chapters", "-1"] else []

/-- Metadata strip directive (lines 1106-1107): emitted unless nocopy lists m. -/
def metadata_args (o : Opts) : List String :=
  if ¬ nocopy_bool o .mdata then ["-map_metadata", "-1"] else []

/-- Attachment directive (lines 1110-1112). -/
def attach_args (o : Opts) : List String :=
  match o.addattach with
  | some p =>
    if p ≠ "" then ["-attach", p, "-metadata:s:t", "mimetype=" ++ o.attachtype]
    else []
  | none => []

/-- os.path.split tail (line 975) for a POSIX path: everything after the
last slash. -/
def basename (p : String) : String :=
  String.mk ((p.data.reverse.takeWhile (fun c => c ≠ '/')).reverse)

/-- input_file sliced from its last dot (line 681); only evaluated on paths
that contain a dot. -/
def ext_from_last_dot (p : String) : String :=
  String.mk ('.' :: (p.data.reverse.takeWhile (fun c => c ≠ '.')).reverse)

/-- get_container_extension (lines 675-682). -/
def get_container_extension (o : Opts) (input_file : String) : String :=
  if truthy_opt_str o.container then "." ++ o.container.getD ("")
  else ext_from_last_dot input_file

/-- filename[:filename.rfind of dot] (line 1117).  When there is no dot the
Python slice filename[:-1] drops the last character. -/
def strip_ext (name : String) : String :=
  if '.' ∈ name.data then
    String.mk (((name.data.reverse.dropWhile (fun c => c ≠ '.')).drop 1).reverse)
  else String.mk name.data.dropLast

/-- os.path.join (line 1118) for the shapes that occur here: an output
directory joined with a relative file name. -/
def path_join (dir name : String) : String :=
  if dir = "" then name
  else if dir.data.getLast? = some '/' then dir ++ name
  else dir ++ "/" ++ name

/-- Insertion of the suffix before the extension (lines 1128-1130).  When
the output name has no dot, rfind returns -1 and the Python slices split
off the last character. -/
def insert_before_last_dot (file sfx : String) : String :=
  if '.' ∈ file.data then
    String.mk (((file.data.reverse.dropWhile (fun c => c ≠ '.')).drop 1).reverse)
      ++ sfx ++ String.mk ('.' :: (file.data.reverse.takeWhile (fun c => c ≠ '.')).reverse)
  else String.mk file.data.dropLast ++ sfx ++ String.mk (file.data.reverse.take 1)

/-- Output path determination with optional suffix (lines 1115-1130). -/
def output_file_name (o : Opts) (fi : FileInfo) (ext : String) (ow oh : Int) :
    Except String String := do
  let base := if o.output_isdir then path_join o.output (strip_ext (basename fi.path) ++ ext)
              else o.output
  if o.suffix then do
    let sfx ← suffix_str o ow oh
    pure (insert_before_last_dot base sfx)
  else pure base

/-- The command compilation for one input file: the body of the loop of
process_input (lines 969-1133), up to but not including the subprocess
invocation.  The result is the full ordered token list and the output path
token (its last element); every Python exception of the body, including the
ones the inner video filter try/except turns into a continue, is an error
outcome. -/
def build_command (o : Opts) (fi : FileInfo) : Except String (List String × String) :=
  let input_filename := basename fi.path
  if ¬ ('.' ∈ input_filename.data) then
    Except.error ("Input file name contains no extension: " ++ fi.path)
  else
    let output_extension := get_container_extension o fi.path
    let dims := get_dimensions_from_args o
    do
      let mseg ← map_stage o fi
      let vfres ← (if ¬ nocopy_bool o (.st .v) then video_filters_from_args o dims.1 dims.2 fi
                   else pure ([], dims.1, dims.2))
      let vft := if vfres.1 ≠ [] then ["-vf", str_join "," vfres.1] else []
      let afilters := if ¬ nocopy_bool o (.st .a) then audio_filters_from_args o fi else []
      let aft := if afilters ≠ [] then ["-af", str_join "," afilters] else []
      let out ← output_file_name o fi output_extension vfres.2.1 vfres.2.2
      pure (header_args o fi ++ mseg ++ vft ++ aft ++ length_args o
        ++ chapter_args o ++ metadata_args o ++ attach_args o ++ [out], out)

/-- True exactly on error outcomes. -/
def is_err {α : Type} : Except String α → Bool
  | .error _ => true
  | .ok _ => false

/-- The batch loop of process_input (lines 964-1167) in dry-run view: one
outcome per input file in order, and the error counter, which the source
increments exactly once per failed file before continuing with the next
file.  Subprocess execution and its exit codes are external collaborators
and out of scope. -/
def process_input (o : Opts) (files : List FileInfo) :
    Nat × List (Except String (List String × String)) :=
  let outcomes := files.map (build_command o)
  (outcomes.countP is_err, outcomes)

/-- The generic dependency walk of check_arg_stream_dependencies (lines
611-616): for each named option, the first of its stream type keys that is
in none of the dependency key sets raises. -/
def check_arg_stream_dependencies (named : List (String × List StreamType))
    (deps : List (List StreamType)) : Except String Unit :=
  match named with
  | [] => Except.ok ()
  | (nm, keys) :: rest =>
    match keys.find? (fun k => ¬ deps.any (fun dl => decide (k ∈ dl))) with
    | some _ => Except.error ("Use of stream option " ++ nm
        ++ " requires use of a dependent option with same stream type")
    | none => check_arg_stream_dependencies rest deps

/-- check_arg_stream_names_dependencies (lines 631-636): each truthy named
flag requires the given stream type in one of the dependency key sets. -/
def check_arg_stream_names_dependencies (flags : List (String × Bool))
    (deps : List (List StreamType)) (spec : StreamType) : Except String Unit :=
  match flags with
  | [] => Except.ok ()
  | (nm, b) :: rest =>
    if b ∧ ¬ deps.any (fun dl => decide (spec ∈ dl)) then
      Except.error ("Use of argument " ++ nm ++ " requires a stream option of type "
        ++ spec.code)
    else check_arg_stream_names_dependencies rest deps spec

/-- check_dependent_args (lines 594-598). -/
def check_dependent_args (flags : List (String × Bool)) (requires_set : List Bool) :
    Except String Unit :=
  match flags with
  | [] => Except.ok ()
  | (nm, b) :: rest =>
    if b ∧ ¬ requires_set.any id then
      Except.error ("Argument " ++ nm ++ " requires one of a dependent set")
    else check_dependent_args rest requires_set

/-- check_exclusive_args (lines 586-590). -/
def check_exclusive_args (flags : List (String × Bool)) : Except String Unit :=
  if (flags.filter (fun p => p.2)).length > 1 then
    Except.error ("Mutually exclusive arguments")
  else Except.ok ()

/-- check_arg_stream_exclusive over nocopy and codec (lines 620-627, called
at line 666): raises exactly when some stream key occurs in both.  The
second pass of the Python double loop re-detects the same key and is
redundant. -/
def check_nocopy_codec_exclusive (o : Opts) : Except String Unit :=
  match o.nocopy.find? (fun k =>
      match k with
      | .st x => decide (x ∈ o.codec.map Prod.fst)
      | _ => false) with
  | some _ => Except.error ("Mutually exclusive args for stream type")
  | none => Except.ok ()

/-- check_arg_stream_names_exclusive over the resolution flags and nocopy v
(lines 640-645, called at line 668). -/
def check_res_nocopy_exclusive (o : Opts) : Except String Unit :=
  if (o.hd ∨ o.fhd ∨ o.qhd ∨ o.uhd) ∧ nocopy_bool o (.st .v) then
    Except.error ("Mutually exclusive arg for stream type v")
  else Except.ok ()

/-- check_valid_arguments (lines 649-671), the checks chained in source
order; the first failing check aborts with its error. -/
def check_valid_arguments (o : Opts) : Except String Unit := do
  check_arg_stream_dependencies [("bitrate", o.bitrate.map Prod.fst)]
    [o.codec.map Prod.fst, o.addcodec.map Prod.fst]
  check_arg_stream_dependencies
    [("addcodec", o.addcodec.map Prod.fst), ("addstream", o.addstream.map Prod.fst),
     ("addfirst", o.addfirst), ("adddefault", o.adddefault),
     ("addlang", o.addlang.map Prod.fst), ("addlooped", o.addlooped)]
    [o.addfile.map Prod.fst]
  check_arg_stream_dependencies [("addlooped", o.addlooped)] [o.addcodec.map Prod.fst]
  check_arg_stream_names_dependencies
    [("tune", truthy_opt_str o.tune), ("crf", truthy_opt_int o.crf),
     ("crop", truthy_opt_str o.crop), ("8bit", o.bit8), ("10bit", o.bit10),
     ("sdr", o.sdr), ("hdr", o.hdr), ("hd", o.hd), ("fhd", o.fhd), ("qhd", o.qhd),
     ("uhd", o.uhd)]
    [o.codec.map Prod.fst, o.addcodec.map Prod.fst] .v
  check_arg_stream_names_dependencies [("mono", o.mono), ("stereo", o.stereo)]
    [o.codec.map Prod.fst, o.addcodec.map Prod.fst] .a
  check_dependent_args [("crop", truthy_opt_str o.crop)]
    [o.hd, o.fhd, o.qhd, o.uhd, decide (o.width ≠ 0), decide (o.height ≠ 0)]
  check_dependent_args [("addlooped", decide (o.addlooped ≠ []))]
    [o.shortest, decide (o.duration ≠ "")]
  check_nocopy_codec_exclusive o
  check_res_nocopy_exclusive o
  check_exclusive_args
    [("hd", o.hd), ("fhd", o.fhd), ("qhd", o.qhd), ("uhd", o.uhd),
     ("width", decide (o.width ≠ 0))]
  check_exclusive_args
    [("hd", o.hd), ("fhd", o.fhd), ("qhd", o.qhd), ("uhd", o.uhd),
     ("height", decide (o.height ≠ 0))]

/-- The argument checking step of main (lines 1207-1212) followed by the
batch (line 1218): a validation error aborts before process_input runs. -/
def run_batch (o : Opts) (files : List FileInfo) :
    Except String (Nat × List (Except String (List String × String))) := do
  check_valid_arguments o
  pure (process_input o files)

/-- Specification-side description of the second token of an emitted map
directive for a stream type, from the wording of the mapping claim: the
drop form when no-copy is set for the type, else a single-index select or
the optional all-streams wildcard. -/
def sel_tok (o : Opts) (ty : StreamType) : String :=
  if nocopy_bool o (.st ty) then "-0:" ++ (ty.code ++ "?")
  else
    match stream_type_arg o.singlestream ty with
    | some num => "0:" ++ (ty.code ++ (":" ++ toString num))
    | none => "0:" ++ (ty.code ++ "?")

/-- The computed primary-group stream count in the non-fatal case. -/
def prim_count (o : Opts) (fi : FileInfo) (ty : StreamType) : Nat :=
  if nocopy_bool o (.st ty) then 0
  else match stream_type_arg o.singlestream ty with
    | some _ => 1
    | none => fi.counts ty

/-- The computed added-group stream count in the non-fatal case. -/
def add_count (o : Opts) (fi : FileInfo) (ty : StreamType) : Nat :=
  match stream_type_arg o.addfile ty with
  | some af =>
    if af ≠ "" then
      match stream_type_arg o.addstream ty with
      | some _ => 1
      | none => fi.add_counts ty
    else 0
  | none => 0

/-- Whether the primary group emits a map directive: gated by the computed
count in the default path and by the probed count in the addfirst path. -/
def prim_emit (o : Opts) (fi : FileInfo) (ty : StreamType) : Bool :=
  if stream_type_bool o.addfirst ty then decide (fi.counts ty ≠ 0)
  else decide (prim_count o fi ty ≠ 0)

/-- Whether the added group emits a map directive. -/
def add_emit (o : Opts) (fi : FileInfo) (ty : StreamType) : Bool :=
  decide (add_count o fi ty ≠ 0)

/-- An option set with every option absent, matching the argparse defaults
(framerate, attachtype, padding and the binaries keep their declared
default values), output path out.mkv which is not a directory. -/
def base_opts : Opts where
  container := none
  codec := []
  bitrate := []
  lang := []
  nocopy := []
  singlestream := []
  convertonly := []
  addfile := []
  addcodec := []
  addstream := []
  addfirst := []
  adddefault := []
  addlang := []
  addlooped := []
  mono := false
  stereo := false
  preset := none
  tune := none
  tier := none
  crf := none
  deshake := false
  bit8 := false
  bit10 := false
  sdr := false
  hdr := false
  hd := false
  fhd := false
  qhd := false
  uhd := false
  width := 0
  height := 0
  crop := none
  padding := 4
  sequence := false
  framerate := "30000/1001"
  nounknown := false
  addattach := none
  attachtype := "application/octet-stream"
  shortest := false
  duration := ""
  overwrite := false
  suffix := false
  ffmpegbin := "ffmpeg"
  output := "out.mkv"
  output_isdir := false

/-- A probe oracle for an input file in.mkv with no streams at all. -/
def zero_file : FileInfo where
  path := "in.mkv"
  counts := fun _ => 0
  add_counts := fun _ => 0
  codec_name := fun _ _ => ""
  add_codec_name := fun _ _ => ""
  width := none
  height := none
  dar := none

/-- A probe oracle reporting one attachment stream and one data stream. -/
def td_file : FileInfo :=
  { zero_file with counts := (fun ty => match ty with | .t => 1 | .d => 1 | _ => 0) }

/-- The command compiled for base_opts and td_file. -/
def td_cmd : List String :=
  ["ffmpeg", "-i", "in.mkv", "-copy_unknown",
   "-map", "0:t?", "-c:t:0", "-map", "0:d?", "-c:d:0",
   "-map_chapters", "-1", "-map_metadata", "-1", "out.mkv"]

/-- The command compiled for base_opts and zero_file. -/
def zero_cmd : List String :=
  ["ffmpeg", "-i", "in.mkv", "-copy_unknown",
   "-map_chapters", "-1", "-map_metadata", "-1", "out.mkv"]

/-- Options requesting video codec h264 with convert-only for video. -/
def c4v_opts : Opts := { base_opts with codec := [(.v, "h264")], convertonly := [.v] }

/-- Options requesting audio codec aac with convert-only for audio. -/
def c4a_opts : Opts := { base_opts with codec := [(.a, "aac")], convertonly := [.a] }

/-- Audio codec probe for two streams: stream 0 already aac, stream 1 mp3. -/
def c4a_codec : Nat → String :=
  fun n => match n with | 0 => "aac" | 1 => "mp3" | _ => ""

/-- Options with a single-stream request for video that is out of range for
zero_file, but with nocopy also set for video. -/
def c3_opts : Opts := { base_opts with nocopy := [.st .v], singlestream := [(.v, 0)] }

/-- Options with a single-stream request of index 2 for audio. -/
def c3b_opts : Opts := { base_opts with singlestream := [(.a, 2)] }

/-- A probe oracle reporting a single audio stream. -/
def c3b_file : FileInfo :=
  { zero_file with counts := (fun ty => match ty with | .a => 1 | _ => 0) }

/-- Options with a bitrate for audio but no codec or addcodec at all. -/
def c7_opts : Opts := { base_opts with bitrate := [(.a, "1M")] }

/-- Options for the suffix claim: video codec, crop anchor, hd resolution,
suffix generation on. -/
def c8_opts : Opts := { base_opts with
  codec := [(.v, "h264")],
  crop := some "center",
  hd := true,
  suffix := true }

/-- A probe oracle reporting full-hd geometry. -/
def geo_file : FileInfo := { zero_file with
  width := some 1920,
  height := some 1080,
  counts := (fun ty => match ty with | .v => 1 | _ => 0) }

/-- A probe oracle reporting two audio streams. -/
def c2w_file : FileInfo :=
  { zero_file with counts := (fun ty => match ty with | .a => 2 | _ => 0) }

/-- The mapping segment compiled for base_opts, c2w_file and audio. -/
def c2w_seg : List String :=
  ["-map", "0:a?", "-c:a:0", "copy", "-c:a:1", "copy"]

/-- The two strip directives whose presence the chapters/metadata claim is
about. -/
def Res (x : String) : Prop :=
  x = "-map_chapters" ∨ x = "-map_metadata"

instance (x : String) : Decidable (Res x) := by
  unfold Res
  infer_instance

/-- Appending to the literal string 0 colon normalizes to the literal 0:. -/
theorem tok0_sel_eq (x : String) : toString (0 : Nat) ++ (":" ++ x) = "0:" ++ x := by
  have h0 : toString (0 : Nat) = "0" := by decide
  apply String.ext
  simp [h0, String.data_append]

/-- The drop-form token of stream_map_args at file index 0 normalizes. -/
theorem tok0_drop_eq (x : String) : "-" ++ (toString (0 : Nat) ++ (":" ++ x)) = "-0:" ++ x := by
  have h0 : toString (0 : Nat) = "0" := by decide
  apply String.ext
  simp [h0, String.data_append]

/-- No string with the literal prefix of a codec assignment token is a
strip directive. -/
theorem not_res_pre_c (x : String) : ¬ Res ("-c:" ++ x) := by
  intro h
  rcases h with h | h <;>
    (have hd := congrArg String.data h; simp [String.data_append] at hd)

/-- No disposition token is a strip directive. -/
theorem not_res_pre_disp (x : String) : ¬ Res ("-disposition:" ++ x) := by
  intro h
  rcases h with h | h <;>
    (have hd := congrArg String.data h; simp [String.data_append] at hd)

/-- No per-stream metadata token is a strip directive. -/
theorem not_res_pre_meta (x : String) : ¬ Res ("-metadata:s:" ++ x) := by
  intro h
  rcases h with h | h <;>
    (have hd := congrArg String.data h; simp [String.data_append] at hd)

/-- No language tag value is a strip directive. -/
theorem not_res_pre_lang (x : String) : ¬ Res ("language=" ++ x) := by
  intro h
  rcases h with h | h <;>
    (have hd := congrArg String.data h; simp [String.data_append] at hd)

/-- No select-form map token is a strip directive. -/
theorem not_res_pre_sel (x : String) : ¬ Res ("0:" ++ x) := by
  intro h
  rcases h with h | h <;>
    (have hd := congrArg String.data h; simp [String.data_append] at hd)

/-- No drop-form map token is a strip directive. -/
theorem not_res_pre_drop (x : String) : ¬ Res ("-0:" ++ x) := by
  intro h
  rcases h with h | h <;>
    (have hd := congrArg String.data h; simp [String.data_append] at hd)

/-- No crop filter expression is a strip directive. -/
theorem not_res_pre_crop (x : String) : ¬ Res ("crop=" ++ x) := by
  intro h
  rcases h with h | h <;>
    (have hd := congrArg String.data h; simp [String.data_append] at hd)

/-- No scale filter expression is a strip directive. -/
theorem not_res_pre_scale (x : String) : ¬ Res ("scale=" ++ x) := by
  intro h
  rcases h with h | h <;>
    (have hd := congrArg String.data h; simp [String.data_append] at hd)

/-- No mime type tag is a strip directive. -/
theorem not_res_pre_mime (x : String) : ¬ Res ("mimetype=" ++ x) := by
  intro h
  rcases h with h | h <;>
    (have hd := congrArg String.data h; simp [String.data_append] at hd)

/-- A member of a getD lookup in a list of lists is a member of a member. -/
theorem mem_getD_of_mem {x : String} :
    ∀ (l : List (List String)) (n : Nat), x ∈ l.getD n [] → ∃ la, la ∈ l ∧ x ∈ la := by
  intro l
  induction l with
  | nil => intro n h; simp [List.getD] at h
  | cons hd tl ih =>
    intro n h
    cases n with
    | zero => exact ⟨hd, by simp, by simpa [List.getD] using h⟩
    | succ m =>
      obtain ⟨la, hla, hx⟩ := ih m (by simpa [List.getD] using h)
      exact ⟨la, by simp [hla], hx⟩

/-- A comma join of strings none of which equals t, with t comma-free,
never equals t. -/
theorem str_join_ne (t : String) (hcomma : ¬ (',' ∈ t.data)) :
    ∀ (fs : List String), fs ≠ [] → (∀ f ∈ fs, f ≠ t) → str_join "," fs ≠ t := by
  intro fs
  induction fs with
  | nil => intro h; exact absurd rfl h
  | cons x rest ih =>
    intro _ hall
    cases rest with
    | nil => simpa [str_join] using hall x (by simp)
    | cons y r =>
      intro hj
      apply hcomma
      have hd := congrArg String.data hj
      simp only [str_join, String.data_append] at hd
      rw [← hd]
      have : ',' ∈ (",").data := by decide
      exact List.mem_append_left _ (List.mem_append_right _ this)

/-- Claim C6: for res at least 0 and padding positive, pad_resolution
returns the smallest multiple of the padding that is at least res (it
divides, is at least res, and is below res + padding), and in particular
pad_resolution 1279 4 = 1280. -/
theorem claim_c6_pad_resolution (res p : Int) (h1 : 0 ≤ res) (h2 : 0 < p) :
    p ∣ pad_resolution res p ∧ res ≤ pad_resolution res p ∧
    pad_resolution res p < res + p ∧ pad_resolution 1279 4 = 1280 := by
  have hfm : Int.fmod res p = res % p := Int.fmod_eq_emod res (le_of_lt h2)
  have hmn : 0 ≤ res % p := Int.emod_nonneg res (by omega)
  have hml : res % p < p := Int.emod_lt_of_pos res h2
  have hde : p * (res / p) + res % p = res := Int.ediv_add_emod res p
  unfold pad_resolution
  rw [hfm]
  by_cases hz : res % p = 0
  · rw [if_pos hz]
    exact ⟨Int.dvd_of_emod_eq_zero hz, le_refl res, by omega, by decide⟩
  · rw [if_neg hz]
    have key : res + p - res % p = p * (res / p + 1) := by
      rw [mul_add, mul_one]
      linarith
    refine ⟨⟨res / p + 1, key⟩, by linarith, ?_, by decide⟩
    have : 0 < res % p := lt_of_le_of_ne hmn (Ne.symm hz)
    linarith

/-- Claim C6 witness: the hypotheses hold at res 1279, padding 4, and the
conclusion evaluates there. -/
theorem claim_c6_pad_resolution_witness :
    0 ≤ (1279 : Int) ∧ 0 < (4 : Int) ∧
    ((4 : Int) ∣ pad_resolution 1279 4 ∧ (1279 : Int) ≤ pad_resolution 1279 4 ∧
      pad_resolution 1279 4 < 1279 + 4 ∧ pad_resolution 1279 4 = 1280) :=
  ⟨by decide, by decide, claim_c6_pad_resolution 1279 4 (by decide) (by decide)⟩

/-- Claim C8: the claim expects suffix_str to return a suffix containing
the WxH fragment and the crop fragment when a video codec, a crop anchor
and nonzero resolved dimensions are present; the code instead never reaches
its codec branch (the guard at line 403 tests membership in a pair list and
is always False), so the suffix is empty, and the branch itself would raise
AttributeError at line 424 if it were reached. -/
theorem claim_c8_suffix_bug :
    suffix_str c8_opts 1280 720 = Except.ok ("") ∧
    suffix_codec_fragment c8_opts .v 1280 720 =
      Except.error ("AttributeError: str object has no attribute args") :=
  ⟨rfl, rfl⟩

/-- Claim C9: compiling the same option set with the same probe facts twice
yields identical command token sequences and identical suffixes.  The
embedded compiler is a pure function of the option set and the probe facts,
so equal inputs give equal outputs. -/
theorem claim_c9_determinism (o1 o2 : Opts) (f1 f2 : FileInfo) (w1 w2 h1 h2 : Int)
    (ho : o1 = o2) (hf : f1 = f2) (hw : w1 = w2) (hh : h1 = h2) :
    build_command o1 f1 = build_command o2 f2 ∧
    suffix_str o1 w1 h1 = suffix_str o2 w2 h2 := by
  subst ho; subst hf; subst hw; subst hh
  exact ⟨rfl, rfl⟩

/-- Claim C9 witness at a concrete option set and probe. -/
theorem claim_c9_determinism_witness :
    build_command base_opts zero_file = build_command base_opts zero_file ∧
    suffix_str base_opts 0 0 = suffix_str base_opts 0 0 :=
  claim_c9_determinism base_opts base_opts zero_file zero_file 0 0 0 0 rfl rfl rfl rfl

/-- Claim C4: with convert-only and codec h264 for video and a stream that
probes as h264, the claim expects the stream to be assigned copy; instead
the video encoder construction always raises AttributeError at line 501
(args.vbitrate is never defined), so the whole file fails.  The second
conjunct shows the convert-only assignment working as claimed for audio,
where the encoder construction does not touch the missing attribute:
stream 0 probing aac is assigned copy, stream 1 probing mp3 the aac
encoder argument list. -/
theorem claim_c4_convert_only_video_bug :
    stream_map true c4v_opts .v 1 0 (fun _ => "h264") =
      Except.error ("AttributeError: Namespace object has no attribute vbitrate") ∧
    stream_map true c4a_opts .a 2 0 c4a_codec =
      Except.ok ["-map", "0:a?", "-c:a:0", "copy", "-c:a:1", "aac"] :=
  ⟨rfl, rfl⟩

/-- Claim C1: the mapping loop iterates STREAM_TYPES_SHORT, in which t
(attachment) precedes d (data), so for a file with one attachment and one
data stream the compiled command maps the attachment type before the data
type, contradicting the claimed order video, audio, subtitle, data,
attachment (which is also the order stated by the help text of the source
at line 32). -/
theorem claim_c1_stream_order :
    build_command base_opts td_file = Except.ok (td_cmd, "out.mkv") ∧
    td_cmd.indexOf ("0:t?") < td_cmd.indexOf ("0:d?") ∧
    td_file.counts .t = 1 ∧ td_file.counts .d = 1 :=
  ⟨rfl, by decide, rfl, rfl⟩

/-- Claim C2 counterexample: for the empty option set and a file probing 0
streams of every type, the compiled command contains no map directive at
all, while the claim requires a drop-form directive per stream type when
the count is 0. -/
theorem claim_c2_counterexample :
    build_command base_opts zero_file = Except.ok (zero_cmd, "out.mkv") ∧
    "-map" ∉ zero_cmd ∧ (∀ ty : StreamType, zero_file.counts ty = 0) := by
  refine ⟨rfl, by decide, ?_⟩
  intro ty; cases ty <;> rfl

/-- Claim C3 counterexample: a single-stream index 0 is requested for video
and exceeds the probed count 0, yet because nocopy is also set for video
the code never consults the request: the file compiles and the batch error
counter stays 0, while the claim requires a fatal error counting 1. -/
theorem claim_c3_counterexample :
    stream_type_arg c3_opts.singlestream .v = some 0 ∧
    ((zero_file.counts .v : Int) < 0 + 1) ∧
    build_command c3_opts zero_file = Except.ok (zero_cmd, "out.mkv") ∧
    (process_input c3_opts [zero_file]).1 = 0 :=
  ⟨rfl, by decide, rfl, rfl⟩

/-- Claim C5: when the requested output width equals the probed input width
or the requested output height equals the probed input height (with the
probed dimensions parsing to nonzero values), the geometry resolver emits
no scale or crop filter, only the optional color-space and deshake
filters, and resets both resolved dimensions to 0. -/
theorem claim_c5_geometry_noop (o : Opts) (ow oh iw ih : Int) (fi : FileInfo)
    (hw : fi.width = some iw) (hh : fi.height = some ih)
    (hiw : iw ≠ 0) (hih : ih ≠ 0) (heq : ow = iw ∨ oh = ih) :
    video_filters_from_args o ow oh fi =
      Except.ok ((if o.sdr then [CSC_FILTER] else [])
        ++ (if o.deshake then ["deshake"] else []), 0, 0) := by
  rcases heq with h | h
  · subst h
    cases hdar : fi.dar with
    | some q =>
      simp [video_filters_from_args, video_filters_geometry, hw, hh, hdar, hiw, hih,
        Except.bind]; rfl
    | none =>
      simp [video_filters_from_args, video_filters_geometry, hw, hh, hdar, hiw, hih,
        Except.bind]; rfl
  · subst h
    cases hdar : fi.dar with
    | some q =>
      simp [video_filters_from_args, video_filters_geometry, hw, hh, hdar, hiw, hih,
        Except.bind]; rfl
    | none =>
      simp [video_filters_from_args, video_filters_geometry, hw, hh, hdar, hiw, hih,
        Except.bind]; rfl

/-- Claim C5 witness: requested 1280 by 1080 against probed 1920 by 1080,
the heights match, so no filter and dimensions 0. -/
theorem claim_c5_geometry_noop_witness :
    video_filters_from_args base_opts 1280 1080 geo_file =
      Except.ok ((if base_opts.sdr then [CSC_FILTER] else [])
        ++ (if base_opts.deshake then ["deshake"] else []), 0, 0) :=
  claim_c5_geometry_noop base_opts 1280 1080 1920 1080 geo_file rfl rfl
    (by decide) (by decide) (Or.inr rfl)

/-- If a key of the first named option lies in none of the dependency key
sets, the dependency walk raises. -/
theorem check_deps_error_of (nm : String) (keys : List StreamType)
    (deps : List (List StreamType)) (rest : List (String × List StreamType))
    (ty : StreamType) (hty : ty ∈ keys) (hdep : ∀ dl ∈ deps, ty ∉ dl) :
    ∃ e, check_arg_stream_dependencies ((nm, keys) :: rest) deps = Except.error e := by
  unfold check_arg_stream_dependencies
  cases hfind : keys.find? (fun k => ¬ deps.any (fun dl => decide (k ∈ dl))) with
  | none =>
    exfalso
    have hno := List.find?_eq_none.mp hfind ty hty
    simp only [List.any_eq_true, decide_eq_true_eq, not_exists, not_and,
      Bool.not_eq_true, decide_eq_false_iff_not, Decidable.not_not] at hno
    exact hno hdep
  | some k =>
    exact ⟨_, rfl⟩

/-- Claim C7: a bitrate set for a stream type without codec or addcodec for
the same type makes check_valid_arguments raise, and the batch never
starts: run_batch propagates the validation error and process_input is not
invoked. -/
theorem claim_c7_bitrate_requires_codec (o : Opts) (files : List FileInfo) (ty : StreamType)
    (hb : ty ∈ o.bitrate.map Prod.fst)
    (hc : ty ∉ o.codec.map Prod.fst)
    (ha : ty ∉ o.addcodec.map Prod.fst) :
    ∃ e, check_valid_arguments o = Except.error e ∧ run_batch o files = Except.error e := by
  have hdep : ∀ dl ∈ [o.codec.map Prod.fst, o.addcodec.map Prod.fst], ty ∉ dl := by
    intro dl hdl
    simp only [List.mem_cons, List.not_mem_nil, or_false, List.mem_singleton] at hdl
    rcases hdl with h | h
    · subst h; exact hc
    · subst h; exact ha
  obtain ⟨e, he⟩ := check_deps_error_of ("bitrate") (o.bitrate.map Prod.fst)
    [o.codec.map Prod.fst, o.addcodec.map Prod.fst] [] ty hb hdep
  have hcva : check_valid_arguments o = Except.error e := by
    unfold check_valid_arguments
    rw [he]
    rfl
  refine ⟨e, hcva, ?_⟩
  unfold run_batch
  rw [hcva]
  rfl

/-- Claim C7 witness: bitrate set for audio, no codec and no addcodec. -/
theorem claim_c7_bitrate_requires_codec_witness :
    (StreamType.a ∈ c7_opts.bitrate.map Prod.fst ∧
     StreamType.a ∉ c7_opts.codec.map Prod.fst ∧
     StreamType.a ∉ c7_opts.addcodec.map Prod.fst) ∧
    ∃ e, check_valid_arguments c7_opts = Except.error e ∧
      run_batch c7_opts [zero_file] = Except.error e :=
  ⟨⟨by decide, by decide, by decide⟩,
    claim_c7_bitrate_requires_codec c7_opts [zero_file] .a (by decide) (by decide) (by decide)⟩

/-- An out-of-range singlestream index with nocopy unset makes the primary
count check raise. -/
theorem prim_count_checked_err (o : Opts) (fi : FileInfo) (ty : StreamType) (n : Int)
    (hnc : nocopy_bool o (.st ty) = false)
    (hss : stream_type_arg o.singlestream ty = some n)
    (hbound : (fi.counts ty : Int) < n + 1) :
    ∃ e, prim_count_checked o fi ty = Except.error e := by
  unfold prim_count_checked
  rw [hnc, hss]
  simp only [Bool.false_eq_true, not_false_iff, if_true]
  rw [if_pos (by omega : (n + 1 : Int) > (fi.counts ty : Int))]
  exact ⟨_, rfl⟩

/-- An out-of-range addstream index with a truthy addfile makes the added
count check raise. -/
theorem add_count_checked_err (o : Opts) (fi : FileInfo) (ty : StreamType) (n : Int)
    (haf : truthy_opt_str (stream_type_arg o.addfile ty) = true)
    (has : stream_type_arg o.addstream ty = some n)
    (hbound : (fi.add_counts ty : Int) < n + 1) :
    ∃ e, add_count_checked o fi ty = Except.error e := by
  cases harg : stream_type_arg o.addfile ty with
  | none => rw [harg] at haf; simp [truthy_opt_str] at haf
  | some af =>
    rw [harg] at haf
    have hne : af ≠ "" := by simpa [truthy_opt_str] using haf
    unfold add_count_checked
    rw [harg]
    dsimp only
    rw [if_pos hne, has]
    dsimp only
    rw [if_pos (by omega : (n + 1 : Int) > (fi.add_counts ty : Int))]
    exact ⟨_, rfl⟩

/-- A failing count check makes the whole per-type mapping stage raise. -/
theorem map_type_stage_err (o : Opts) (fi : FileInfo) (ty : StreamType)
    (h : (∃ e, add_count_checked o fi ty = Except.error e) ∨
         (∃ e, prim_count_checked o fi ty = Except.error e)) :
    ∃ e, map_type_stage o fi ty = Except.error e := by
  rcases h with ⟨e, he⟩ | ⟨e, he⟩
  · unfold map_type_stage
    rw [he]
    exact ⟨e, rfl⟩
  · unfold map_type_stage
    cases ha : add_count_checked o fi ty with
    | error e2 => exact ⟨e2, rfl⟩
    | ok ia =>
      rw [he]
      exact ⟨e, rfl⟩

/-- A failing per-type stage for a type in the loop list makes the whole
mapping loop raise. -/
theorem map_stage_aux_err (o : Opts) (fi : FileInfo) :
    ∀ (l : List StreamType) (ty : StreamType), ty ∈ l →
    (∃ e, map_type_stage o fi ty = Except.error e) →
    ∃ e, map_stage_aux o fi l = Except.error e := by
  intro l
  induction l with
  | nil => intro ty h; simp at h
  | cons hd tl ih =>
    intro ty hmem herr
    cases hh : map_type_stage o fi hd with
    | error e2 =>
      refine ⟨e2, ?_⟩
      simp only [map_stage_aux]
      rw [hh]
      rfl
    | ok s =>
      rcases List.mem_cons.mp hmem with rfl | htl
      · obtain ⟨e, he⟩ := herr
        rw [he] at hh
        cases hh
      · obtain ⟨e, he⟩ := ih ty htl herr
        refine ⟨e, ?_⟩
        simp only [map_stage_aux]
        rw [hh, he]
        rfl

/-- A failing mapping stage makes the whole per-file compilation fail. -/
theorem build_command_err_of_map_stage (o : Opts) (fi : FileInfo)
    (h : ∃ e, map_stage o fi = Except.error e) :
    is_err (build_command o fi) = true := by
  obtain ⟨e, he⟩ := h
  unfold build_command
  dsimp only
  by_cases hdot : '.' ∈ (basename fi.path).data
  · rw [if_neg (not_not_intro hdot)]
    rw [he]
    rfl
  · rw [if_pos hdot]
    rfl

/-- Claim C3 (amended): when a single-stream index is requested for a type
through a path the code actually consults (singlestream with nocopy unset
for the primary group, or addstream with a truthy addfile for the added
group) and index plus 1 exceeds the probed count of the respective file,
compiling that file fails, the error counter over any batch containing it
counts it exactly once, and the outcomes of all other files of the batch
are unchanged. -/
theorem claim_c3_amended (o : Opts) (fi : FileInfo) (ty : StreamType) (n : Int)
    (fs1 fs2 : List FileInfo)
    (hcase :
      (nocopy_bool o (.st ty) = false ∧ stream_type_arg o.singlestream ty = some n ∧
        (fi.counts ty : Int) < n + 1) ∨
      (truthy_opt_str (stream_type_arg o.addfile ty) = true ∧
        stream_type_arg o.addstream ty = some n ∧ (fi.add_counts ty : Int) < n + 1)) :
    is_err (build_command o fi) = true ∧
    (process_input o (fs1 ++ fi :: fs2)).1 =
      (process_input o fs1).1 + 1 + (process_input o fs2).1 ∧
    (process_input o (fs1 ++ fi :: fs2)).2 =
      (process_input o fs1).2 ++ build_command o fi :: (process_input o fs2).2 := by
  have herr : is_err (build_command o fi) = true := by
    apply build_command_err_of_map_stage
    apply map_stage_aux_err o fi STREAM_TYPES_SHORT ty (by cases ty <;> decide)
    apply map_type_stage_err
    rcases hcase with ⟨h1, h2, h3⟩ | ⟨h1, h2, h3⟩
    · exact Or.inr (prim_count_checked_err o fi ty n h1 h2 h3)
    · exact Or.inl (add_count_checked_err o fi ty n h1 h2 h3)
  refine ⟨herr, ?_, ?_⟩
  · unfold process_input
    simp only [List.map_append, List.map_cons, List.countP_append, List.countP_cons, herr]
    simp
    omega
  · unfold process_input
    simp [List.map_append]

/-- Claim C3 (amended) witness: singlestream index 2 for audio against a
file probing one audio stream, in a batch with one further file. -/
theorem claim_c3_amended_witness :
    is_err (build_command c3b_opts c3b_file) = true ∧
    (process_input c3b_opts ([] ++ c3b_file :: [zero_file])).1 =
      (process_input c3b_opts []).1 + 1 + (process_input c3b_opts [zero_file]).1 ∧
    (process_input c3b_opts ([] ++ c3b_file :: [zero_file])).2 =
      (process_input c3b_opts []).2 ++ build_command c3b_opts c3b_file ::
        (process_input c3b_opts [zero_file]).2 :=
  claim_c3_amended c3b_opts c3b_file .a 2 [] [zero_file]
    (Or.inl ⟨rfl, rfl, by decide⟩)

/-- Bind of an ok value in the Except monad. -/
theorem ebind_ok {α β : Type} (x : α) (f : α → Except String β) :
    (Except.ok x >>= f : Except String β) = f x := rfl

/-- Bind of an error in the Except monad. -/
theorem ebind_err {α β : Type} (e : String) (f : α → Except String β) :
    (Except.error e >>= f : Except String β) = Except.error e := rfl

/-- Pure in the Except monad is ok. -/
theorem epure_eq_ok {α : Type} (x : α) : (pure x : Except String α) = Except.ok x := rfl

/-- Splitting a two-step append bind that ended ok. -/
theorem ebind2_ok {α : Type} (X Y : Except String (List α)) (seg : List α)
    (h : (do
        let p1 ← X
        let p2 ← Y
        pure (p1 ++ p2)) = Except.ok seg) :
    ∃ p1 p2, X = Except.ok p1 ∧ Y = Except.ok p2 ∧ seg = p1 ++ p2 := by
  cases hx : X with
  | error e => rw [hx, ebind_err] at h; cases h
  | ok p1 =>
    rw [hx, ebind_ok] at h
    cases hy : Y with
    | error e => rw [hy, ebind_err] at h; cases h
    | ok p2 =>
      rw [hy, ebind_ok, epure_eq_ok] at h
      injection h with h
      exact ⟨p1, p2, rfl, rfl, h.symm⟩

/-- Every token list an ok stream_map returns starts with the map flag and
the selection token described by sel_tok. -/
theorem stream_map_ok_parts (p : Bool) (o : Opts) (ty : StreamType) (cnt first : Nat)
    (fc : Nat → String) (l : List String)
    (h : stream_map p o ty cnt first fc = Except.ok l) :
    ∃ body, l = "-map" :: sel_tok o ty :: body := by
  unfold stream_map at h
  dsimp only at h
  cases henc : stream_codec_to_encoder ty
      (if p then stream_type_arg o.codec ty else stream_type_arg o.addcodec ty) o with
  | error e => rw [henc, ebind_err] at h; cases h
  | ok ea =>
    rw [henc, ebind_ok, epure_eq_ok] at h
    injection h with h
    subst h
    unfold stream_map_args sel_tok
    by_cases hnoc : nocopy_bool o (.st ty) = true
    · refine ⟨[], ?_⟩
      simp only [hnoc, if_true, tok0_drop_eq]
    · simp only [hnoc, if_false, Bool.false_eq_true]
      cases hss : stream_type_arg o.singlestream ty with
      | some num =>
        dsimp only
        rw [tok0_sel_eq]
        exact ⟨_, rfl⟩
      | none =>
        dsimp only
        rw [tok0_sel_eq]
        exact ⟨_, rfl⟩

/-- An ok primary count check computes prim_count. -/
theorem prim_count_checked_ok (o : Opts) (fi : FileInfo) (ty : StreamType) (n : Nat)
    (h : prim_count_checked o fi ty = Except.ok n) : n = prim_count o fi ty := by
  unfold prim_count_checked at h
  unfold prim_count
  by_cases hnoc : nocopy_bool o (.st ty) = true
  · rw [if_neg (by simp [hnoc])] at h
    rw [if_pos hnoc]
    injection h with h
    exact h.symm
  · rw [if_pos (by simp [hnoc])] at h
    rw [if_neg hnoc]
    cases hss : stream_type_arg o.singlestream ty with
    | some ss =>
      rw [hss] at h
      dsimp only at h
      split at h
      · cases h
      · injection h with h; exact h.symm
    | none =>
      rw [hss] at h
      dsimp only at h
      injection h with h
      exact h.symm

/-- An ok added count check computes add_count. -/
theorem add_count_checked_ok (o : Opts) (fi : FileInfo) (ty : StreamType) (n : Nat)
    (h : add_count_checked o fi ty = Except.ok n) : n = add_count o fi ty := by
  unfold add_count_checked at h
  unfold add_count
  cases harg : stream_type_arg o.addfile ty with
  | none =>
    rw [harg] at h
    dsimp only at h
    injection h with h
    exact h.symm
  | some af =>
    rw [harg] at h
    dsimp only at h ⊢
    by_cases hne : af ≠ ""
    · rw [if_pos hne] at h ⊢
      cases has : stream_type_arg o.addstream ty with
      | some sas =>
        rw [has] at h
        dsimp only at h
        split at h
        · cases h
        · injection h with h; exact h.symm
      | none =>
        rw [has] at h
        dsimp only at h
        injection h with h
        exact h.symm
    · rw [if_neg hne] at h ⊢
      injection h with h
      exact h.symm

/-- Claim C2 (amended): a stream-type group contributes a map directive
only when it is emitted at all: with addfirst unset the primary and added
groups emit exactly when their computed counts are nonzero; with addfirst
set the added group emits when its computed count is nonzero and the
primary group when the probed primary count is nonzero.  Every emitted
directive begins with the map flag followed by the token sel_tok, which is
the drop form exactly when no-copy is set for the type, else a single
explicit index select or the optional all-streams wildcard.  Groups that do
not emit contribute nothing, in particular no drop-form directive. -/
theorem claim_c2_amended (o : Opts) (fi : FileInfo) (ty : StreamType) (seg : List String)
    (h : map_type_stage o fi ty = Except.ok seg) :
    ∃ pbody abody,
      seg = (if stream_type_bool o.addfirst ty then
               ((if add_emit o fi ty then "-map" :: sel_tok o ty :: abody else []) ++
                (if prim_emit o fi ty then "-map" :: sel_tok o ty :: pbody else []))
             else
               ((if prim_emit o fi ty then "-map" :: sel_tok o ty :: pbody else []) ++
                (if add_emit o fi ty then "-map" :: sel_tok o ty :: abody else []))) := by
  unfold map_type_stage at h
  cases ha : add_count_checked o fi ty with
  | error e => rw [ha, ebind_err] at h; cases h
  | ok ia =>
    rw [ha, ebind_ok] at h
    cases hp : prim_count_checked o fi ty with
    | error e => rw [hp, ebind_err] at h; cases h
    | ok ip =>
      rw [hp, ebind_ok] at h
      have hia : ia = add_count o fi ty := add_count_checked_ok o fi ty ia ha
      have hip : ip = prim_count o fi ty := prim_count_checked_ok o fi ty ip hp
      by_cases haf : stream_type_bool o.addfirst ty = true
      · rw [if_neg (by simp [haf])] at h
        obtain ⟨p1, p2, h1, h2, hseg⟩ := ebind2_ok _ _ _ h
        by_cases hia0 : ia ≠ 0
        · rw [if_pos hia0] at h1
          obtain ⟨abody, hab⟩ := stream_map_ok_parts _ _ _ _ _ _ _ h1
          by_cases hpc : fi.counts ty ≠ 0
          · rw [if_pos hpc] at h2
            obtain ⟨pbody, hpb⟩ := stream_map_ok_parts _ _ _ _ _ _ _ h2
            refine ⟨pbody, abody, ?_⟩
            simp only [haf, if_true, add_emit, prim_emit, ← hia]
            rw [hseg, hab, hpb]
            simp [hia0, hpc]
          · rw [if_neg hpc] at h2
            injection h2 with h2
            refine ⟨[], abody, ?_⟩
            simp only [haf, if_true, add_emit, prim_emit, ← hia]
            rw [hseg, hab, ← h2]
            simp [hia0, hpc]
        · rw [if_neg hia0] at h1
          injection h1 with h1
          by_cases hpc : fi.counts ty ≠ 0
          · rw [if_pos hpc] at h2
            obtain ⟨pbody, hpb⟩ := stream_map_ok_parts _ _ _ _ _ _ _ h2
            refine ⟨pbody, [], ?_⟩
            simp only [haf, if_true, add_emit, prim_emit, ← hia]
            rw [hseg, hpb, ← h1]
            simp [hia0, hpc]
          · rw [if_neg hpc] at h2
            injection h2 with h2
            refine ⟨[], [], ?_⟩
            simp only [haf, if_true, add_emit, prim_emit, ← hia]
            rw [hseg, ← h1, ← h2]
            simp [hia0, hpc]
      · rw [if_pos (by simp [haf])] at h
        obtain ⟨p1, p2, h1, h2, hseg⟩ := ebind2_ok _ _ _ h
        by_cases hip0 : ip ≠ 0
        · rw [if_pos hip0] at h1
          obtain ⟨pbody, hpb⟩ := stream_map_ok_parts _ _ _ _ _ _ _ h1
          by_cases hia0 : ia ≠ 0
          · rw [if_pos hia0] at h2
            obtain ⟨abody, hab⟩ := stream_map_ok_parts _ _ _ _ _ _ _ h2
            refine ⟨pbody, abody, ?_⟩
            simp only [haf, add_emit, prim_emit, ← hia, ← hip]
            rw [hseg, hab, hpb]
            simp [hia0, hip0]
          · rw [if_neg hia0] at h2
            injection h2 with h2
            refine ⟨pbody, [], ?_⟩
            simp only [haf, add_emit, prim_emit, ← hia, ← hip]
            rw [hseg, hpb, ← h2]
            simp [hia0, hip0]
        · rw [if_neg hip0] at h1
          injection h1 with h1
          by_cases hia0 : ia ≠ 0
          · rw [if_pos hia0] at h2
            obtain ⟨abody, hab⟩ := stream_map_ok_parts _ _ _ _ _ _ _ h2
            refine ⟨[], abody, ?_⟩
            simp only [haf, add_emit, prim_emit, ← hia, ← hip]
            rw [hseg, hab, ← h1]
            simp [hia0, hip0]
          · rw [if_neg hia0] at h2
            injection h2 with h2
            refine ⟨[], [], ?_⟩
            simp only [haf, add_emit, prim_emit, ← hia, ← hip]
            rw [hseg, ← h1, ← h2]
            simp [hia0, hip0]

/-- Claim C2 (amended) witness: two probed audio streams with the empty
option set; the primary group emits the wildcard select directive and the
added group emits nothing. -/
theorem claim_c2_amended_witness :
    ∃ pbody abody,
      c2w_seg = (if stream_type_bool base_opts.addfirst .a then
               ((if add_emit base_opts c2w_file .a then
                   "-map" :: sel_tok base_opts .a :: abody else []) ++
                (if prim_emit base_opts c2w_file .a then
                   "-map" :: sel_tok base_opts .a :: pbody else []))
             else
               ((if prim_emit base_opts c2w_file .a then
                   "-map" :: sel_tok base_opts .a :: pbody else []) ++
                (if add_emit base_opts c2w_file .a then
                   "-map" :: sel_tok base_opts .a :: abody else []))) :=
  claim_c2_amended base_opts c2w_file .a c2w_seg rfl

/-- No token of an ok video encoder list is a strip directive (the ok case
only arises for the copy passthrough). -/
theorem video_encoder_not_res (c : Option String) (o : Opts) (l : List String)
    (h : video_codec_to_encoder c o = Except.ok l) : ∀ x ∈ l, ¬ Res x := by
  unfold video_codec_to_encoder at h
  cases c with
  | none => injection h with h; subst h; decide
  | some cc =>
    dsimp only at h
    split at h <;> cases h

/-- No token of an ok audio encoder list is a strip directive. -/
theorem audio_encoder_not_res (c : Option String) (o : Opts) (l : List String)
    (h : audio_codec_to_encoder c o = Except.ok l) : ∀ x ∈ l, ¬ Res x := by
  unfold audio_codec_to_encoder at h
  cases c with
  | none => injection h with h; subst h; decide
  | some cc =>
    dsimp only at h
    by_cases hmem : cc ∈ AUDIO_CODECS
    · rw [if_neg (not_not_intro hmem)] at h
      have hcases : cc = "aac" ∨ cc = "ac3" ∨ cc = "eac3" ∨ cc = "dts" ∨ cc = "flac" ∨
          cc = "opus" ∨ cc = "mp3" ∨ cc = "wav" := by
        simpa [AUDIO_CODECS] using hmem
      rcases hcases with rfl | rfl | rfl | rfl | rfl | rfl | rfl | rfl <;>
        (repeat' split at h) <;>
        first
          | (injection h with h; subst h; decide)
          | cases h
    · rw [if_pos hmem] at h
      cases h

/-- No token of an ok subtitle encoder list is a strip directive. -/
theorem subtitle_encoder_not_res (c : Option String) (o : Opts) (l : List String)
    (h : subtitle_codec_to_encoder c o = Except.ok l) : ∀ x ∈ l, ¬ Res x := by
  unfold subtitle_codec_to_encoder at h
  cases c with
  | none => injection h with h; subst h; decide
  | some cc =>
    dsimp only at h
    by_cases hmem : cc ∈ SUBTITLE_CODECS
    · rw [if_neg (not_not_intro hmem)] at h
      have hcases : cc = "ssa" ∨ cc = "ass" ∨ cc = "dvbsub" ∨ cc = "dvdsub" ∨
          cc = "srt" ∨ cc = "sub" := by
        simpa [SUBTITLE_CODECS] using hmem
      rcases hcases with rfl | rfl | rfl | rfl | rfl | rfl <;>
        (repeat' split at h) <;>
        first
          | (injection h with h; subst h; decide)
          | cases h
    · rw [if_pos hmem] at h
      cases h

/-- No token of an ok stream_codec_to_encoder list is a strip directive. -/
theorem encoder_not_res (ty : StreamType) (c : Option String) (o : Opts) (l : List String)
    (h : stream_codec_to_encoder ty c o = Except.ok l) : ∀ x ∈ l, ¬ Res x := by
  unfold stream_codec_to_encoder at h
  cases ty <;> dsimp only at h
  case v =>
    cases hv : video_codec_to_encoder c o with
    | error e => rw [hv, ebind_err] at h; cases h
    | ok ea =>
      rw [hv, ebind_ok, epure_eq_ok] at h
      injection h with h
      subst h
      intro x hx
      simp only [stream_type_bool_pair, Bool.false_eq_true, if_false, List.append_nil] at hx
      exact video_encoder_not_res c o ea hv x hx
  case a =>
    cases hv : audio_codec_to_encoder c o with
    | error e => rw [hv, ebind_err] at h; cases h
    | ok ea =>
      rw [hv, ebind_ok, epure_eq_ok] at h
      injection h with h
      subst h
      intro x hx
      simp only [stream_type_bool_pair, Bool.false_eq_true, if_false, List.append_nil] at hx
      exact audio_encoder_not_res c o ea hv x hx
  case s =>
    cases hv : subtitle_codec_to_encoder c o with
    | error e => rw [hv, ebind_err] at h; cases h
    | ok ea =>
      rw [hv, ebind_ok, epure_eq_ok] at h
      injection h with h
      subst h
      intro x hx
      simp only [stream_type_bool_pair, Bool.false_eq_true, if_false, List.append_nil] at hx
      exact subtitle_encoder_not_res c o ea hv x hx
  case t =>
    simp only [stream_type_bool_pair, Bool.false_eq_true, if_false, List.append_nil,
      ebind_ok, epure_eq_ok] at h
    injection h with h
    subst h
    intro x hx
    simp at hx
  case d =>
    simp only [stream_type_bool_pair, Bool.false_eq_true, if_false, List.append_nil,
      ebind_ok, epure_eq_ok] at h
    injection h with h
    subst h
    intro x hx
    simp at hx

/-- Membership in an ite with empty else branch gives membership in the
then branch. -/
theorem mem_ite_nil (c : Prop) [Decidable c] (l : List String) (x : String)
    (h : x ∈ (if c then l else [])) : x ∈ l := by
  split at h
  · exact h
  · exact absurd h (List.not_mem_nil x)

/-- No token emitted by the codec assignment loop is a strip directive,
provided no codec argument and no metadata value is one. -/
theorem codec_tokens_not_res (spec : String) (first : Nat) (cargs : List (List String))
    (meta : Option String) (hc : ∀ la ∈ cargs, ∀ x ∈ la, ¬ Res x)
    (hm : ∀ m, meta = some m → ¬ Res m) :
    ∀ (dflt : Option Bool) (ns : List Nat),
      ∀ x ∈ codec_tokens spec first cargs meta dflt ns, ¬ Res x := by
  intro dflt ns
  induction ns generalizing dflt with
  | nil => intro x hx; simp [codec_tokens] at hx
  | cons n rest ih =>
    intro x hx
    rw [codec_tokens.eq_def] at hx
    dsimp only at hx
    rcases List.mem_append.mp hx with hx | hx
    · rcases List.mem_append.mp hx with hx | hx
      · rcases List.mem_append.mp hx with hx | hx
        · rcases List.mem_append.mp hx with hx | hx
          · have : x = "-c:" ++ (spec ++ (":" ++ toString (first + n))) := by simpa using hx
            subst this
            exact not_res_pre_c _
          · obtain ⟨la, hla, hxla⟩ := mem_getD_of_mem cargs n hx
            exact hc la hla x hxla
        · cases dflt with
          | none => simp at hx
          | some b =>
            rcases List.mem_cons.mp hx with rfl | hx
            · exact not_res_pre_disp _
            · have : x = if b then "default" else "none" := by simpa using hx
              subst this
              cases b <;> decide
      · cases hmeta : meta with
        | none => rw [hmeta] at hx; simp at hx
        | some m =>
          rw [hmeta] at hx
          dsimp only at hx
          by_cases hne : m ≠ ""
          · rw [if_pos hne] at hx
            rcases List.mem_cons.mp hx with rfl | hx
            · exact not_res_pre_meta _
            · have : x = m := by simpa using hx
              subst this
              exact hm x (by rw [hmeta])
          · rw [if_neg hne] at hx
            simp at hx
    · exact ih (dflt.map (fun _ => false)) x hx

/-- No token of an ok stream_map is a strip directive. -/
theorem stream_map_not_res (p : Bool) (o : Opts) (ty : StreamType) (cnt first : Nat)
    (fc : Nat → String) (l : List String)
    (h : stream_map p o ty cnt first fc = Except.ok l) :
    ∀ x ∈ l, ¬ Res x := by
  unfold stream_map at h
  dsimp only at h
  cases henc : stream_codec_to_encoder ty
      (if p then stream_type_arg o.codec ty else stream_type_arg o.addcodec ty) o with
  | error e => rw [henc, ebind_err] at h; cases h
  | ok ea =>
    rw [henc, ebind_ok, epure_eq_ok] at h
    injection h with h
    subst h
    have hea : ∀ x ∈ ea, ¬ Res x := encoder_not_res _ _ _ _ henc
    intro x hx
    rw [stream_map_args.eq_def] at hx
    rcases List.mem_cons.mp hx with rfl | hx
    · decide
    · by_cases hnoc : nocopy_bool o (.st ty) = true
      · rw [if_pos hnoc] at hx
        have : x = "-" ++ (toString (0 : Nat) ++ (":" ++ (ty.code ++ "?"))) := by simpa using hx
        subst this
        rw [tok0_drop_eq]
        exact not_res_pre_drop _
      · rw [if_neg hnoc] at hx
        rcases List.mem_append.mp hx with hx | hx
        · cases hss : stream_type_arg o.singlestream ty with
          | some num =>
            rw [hss] at hx
            have : x = toString (0 : Nat) ++ (":" ++ (ty.code ++ (":" ++ toString num))) := by
              simpa using hx
            subst this
            rw [tok0_sel_eq]
            exact not_res_pre_sel _
          | none =>
            rw [hss] at hx
            have : x = toString (0 : Nat) ++ (":" ++ (ty.code ++ "?")) := by simpa using hx
            subst this
            rw [tok0_sel_eq]
            exact not_res_pre_sel _
        · have hx2 := mem_ite_nil _ _ _ hx
          apply codec_tokens_not_res ty.code first _ _ ?hc ?hm _ _ x hx2
          case hc =>
            intro la hla
            by_cases hco : p = true ∧ ea ≠ [] ∧ stream_type_bool o.convertonly ty = true
            · rw [if_pos hco] at hla
              simp only [List.mem_map] at hla
              obtain ⟨k, _, hk⟩ := hla
              cases hencases : (if p then stream_type_arg o.codec ty
                  else stream_type_arg o.addcodec ty) with
              | some e =>
                rw [hencases] at hk
                dsimp only at hk
                split at hk
                · rw [← hk]; intro x2 hx2; have : x2 = "copy" := by simpa using hx2
                  subst this; decide
                · rw [← hk]; exact hea
              | none =>
                rw [hencases] at hk
                rw [← hk]
                exact hea
            · rw [if_neg hco] at hla
              rw [List.eq_of_mem_replicate hla]
              exact hea
          case hm =>
            intro m hms
            cases hlang : (if p then stream_type_arg o.lang ty
                else stream_type_arg o.addlang ty) with
            | none => rw [hlang] at hms; cases hms
            | some lv =>
              rw [hlang] at hms
              dsimp only at hms
              by_cases hlv : lv ≠ ""
              · rw [if_pos hlv] at hms
                injection hms with hms
                rw [← hms]
                exact not_res_pre_lang _
              · rw [if_neg hlv] at hms
                cases hms

/-- No token contributed by an emission-guarded stream_map part is a strip
directive. -/
theorem emit_part_not_res (cond : Prop) [Decidable cond] (p : Bool) (o : Opts)
    (ty : StreamType) (cnt first : Nat) (fc : Nat → String) (part : List String)
    (h : (if cond then stream_map p o ty cnt first fc else pure []) = Except.ok part) :
    ∀ x ∈ part, ¬ Res x := by
  split at h
  · exact stream_map_not_res _ _ _ _ _ _ _ h
  · rw [epure_eq_ok] at h
    injection h with h
    subst h
    intro x hx
    simp at hx

/-- No token of an ok per-type mapping stage is a strip directive. -/
theorem map_type_stage_not_res (o : Opts) (fi : FileInfo) (ty : StreamType)
    (seg : List String) (h : map_type_stage o fi ty = Except.ok seg) :
    ∀ x ∈ seg, ¬ Res x := by
  unfold map_type_stage at h
  cases ha : add_count_checked o fi ty with
  | error e => rw [ha, ebind_err] at h; cases h
  | ok ia =>
    rw [ha, ebind_ok] at h
    cases hp : prim_count_checked o fi ty with
    | error e => rw [hp, ebind_err] at h; cases h
    | ok ip =>
      rw [hp, ebind_ok] at h
      split at h <;>
        (obtain ⟨p1, p2, h1, h2, hseg⟩ := ebind2_ok _ _ _ h
         subst hseg
         intro x hx
         rcases List.mem_append.mp hx with hx | hx
         · exact emit_part_not_res _ _ _ _ _ _ _ _ h1 x hx
         · exact emit_part_not_res _ _ _ _ _ _ _ _ h2 x hx)

/-- No token of the full ok mapping stage is a strip directive. -/
theorem map_stage_aux_not_res (o : Opts) (fi : FileInfo) :
    ∀ (l : List StreamType) (seg : List String),
      map_stage_aux o fi l = Except.ok seg → ∀ x ∈ seg, ¬ Res x := by
  intro l
  induction l with
  | nil =>
    intro seg h
    rw [map_stage_aux, epure_eq_ok] at h
    injection h with h
    subst h
    intro x hx
    simp at hx
  | cons hd tl ih =>
    intro seg h
    rw [map_stage_aux] at h
    obtain ⟨p1, p2, h1, h2, hseg⟩ := ebind2_ok _ _ _ h
    subst hseg
    intro x hx
    rcases List.mem_append.mp hx with hx | hx
    · exact map_type_stage_not_res o fi hd p1 h1 x hx
    · exact ih p2 h2 x hx

/-- Inversion of an ok bind in the Except monad. -/
theorem ebind_ok_inv {α β : Type} (X : Except String α) (f : α → Except String β) (y : β)
    (h : (X >>= f) = Except.ok y) : ∃ x, X = Except.ok x ∧ f x = Except.ok y := by
  cases hx : X with
  | error e => rw [hx, ebind_err] at h; cases h
  | ok a => rw [hx, ebind_ok] at h; exact ⟨a, rfl, h⟩

/-- Map of an error in the Except monad. -/
theorem emap_err {α β : Type} (g : α → β) (e : String) :
    (g <$> (Except.error e : Except String α)) = Except.error e := rfl

/-- Map of an ok value in the Except monad. -/
theorem emap_ok {α β : Type} (g : α → β) (x : α) :
    (g <$> (Except.ok x : Except String α)) = Except.ok (g x) := rfl

/-- Inversion of an ok map in the Except monad. -/
theorem emap_ok_inv {α β : Type} (g : α → β) (X : Except String α) (y : β)
    (h : (g <$> X) = Except.ok y) : ∃ x, X = Except.ok x ∧ g x = y := by
  cases hx : X with
  | error e => rw [hx, emap_err] at h; cases h
  | ok a => rw [hx, emap_ok] at h; injection h with h; exact ⟨a, rfl, h⟩

set_option maxHeartbeats 2000000 in
/-- The geometry section yields no filter, one crop filter, or one scale
filter. -/
theorem video_filters_geometry_shapes (o : Opts) (ow0 oh0 : Int) (fi : FileInfo)
    (md : List String × Int × Int)
    (h : video_filters_geometry o ow0 oh0 fi = Except.ok md) :
    md.1 = [] ∨ (∃ a b c d, md.1 = [crop_filter_string a b c d]) ∨
      ∃ a b, md.1 = [scale_filter_string a b] := by
  unfold video_filters_geometry at h
  split at h
  · cases hh : fi.height with
    | none => rw [hh] at h; dsimp only at h; rw [ebind_err] at h; cases h
    | some ih1 =>
      rw [hh] at h
      try dsimp only at h
      rw [epure_eq_ok, ebind_ok] at h
      try dsimp only at h
      cases hw : fi.width with
      | none => rw [hw] at h; try dsimp only at h
                rw [ebind_err] at h; cases h
      | some iw1 =>
        rw [hw] at h
        try dsimp only at h
        rw [epure_eq_ok, ebind_ok] at h
        try dsimp only at h
        cases hdar : fi.dar with
        | some q =>
          rw [hdar] at h
          try dsimp only at h
          rw [epure_eq_ok, ebind_ok] at h
          try dsimp only at h
          split at h
          · cases h
          · split at h
            · rw [epure_eq_ok] at h
              injection h with h
              left
              exact (congrArg Prod.fst h).symm
            · obtain ⟨oh1v, -, hD⟩ := ebind_ok_inv _ _ _ h
              try dsimp only at hD
              split at hD
              · obtain ⟨pos, -, hE⟩ := ebind_ok_inv _ _ _ hD
                try dsimp only at hE
                rw [epure_eq_ok] at hE
                injection hE with hE
                right; left
                exact ⟨_, _, _, _, (congrArg Prod.fst hE).symm⟩
              · split at hD
                · cases hD
                · obtain ⟨dims, -, hE⟩ := ebind_ok_inv _ _ _ hD
                  try dsimp only at hE
                  rw [epure_eq_ok] at hE
                  injection hE with hE
                  right; right
                  exact ⟨_, _, (congrArg Prod.fst hE).symm⟩
        | none =>
          rw [hdar] at h
          try dsimp only at h
          split at h
          · rw [ebind_err] at h; cases h
          · rw [epure_eq_ok, ebind_ok] at h
            try dsimp only at h
            split at h
            · cases h
            · split at h
              · rw [epure_eq_ok] at h
                injection h with h
                left
                exact (congrArg Prod.fst h).symm
              · obtain ⟨oh1v, -, hD⟩ := ebind_ok_inv _ _ _ h
                try dsimp only at hD
                split at hD
                · obtain ⟨pos, -, hE⟩ := ebind_ok_inv _ _ _ hD
                  try dsimp only at hE
                  rw [epure_eq_ok] at hE
                  injection hE with hE
                  right; left
                  exact ⟨_, _, _, _, (congrArg Prod.fst hE).symm⟩
                · split at hD
                  · cases hD
                  · obtain ⟨dims, -, hE⟩ := ebind_ok_inv _ _ _ hD
                    try dsimp only at hE
                    rw [epure_eq_ok] at hE
                    injection hE with hE
                    right; right
                    exact ⟨_, _, (congrArg Prod.fst hE).symm⟩
  · rw [epure_eq_ok] at h
    injection h with h
    left
    exact (congrArg Prod.fst h).symm

/-- No filter string an ok video_filters_from_args returns is a strip
directive. -/
theorem video_filters_not_res (o : Opts) (ow0 oh0 : Int) (fi : FileInfo)
    (v : List String) (w2 h2 : Int)
    (h : video_filters_from_args o ow0 oh0 fi = Except.ok (v, w2, h2)) :
    ∀ f ∈ v, ¬ Res f := by
  unfold video_filters_from_args at h
  dsimp only at h
  obtain ⟨md, hg, hA⟩ := ebind_ok_inv _ _ _ h
  rw [epure_eq_ok] at hA
  injection hA with hA
  have hv : v = (if o.sdr then [CSC_FILTER] else []) ++ md.1
      ++ (if o.deshake then ["deshake"] else []) := (congrArg Prod.fst hA).symm
  subst hv
  intro f hf
  rcases List.mem_append.mp hf with hf | hf
  · rcases List.mem_append.mp hf with hf | hf
    · have : f = CSC_FILTER := by simpa using mem_ite_nil _ _ _ hf
      subst this
      decide
    · rcases video_filters_geometry_shapes o ow0 oh0 fi md hg with hmd | ⟨a, b, c, d, hmd⟩ |
        ⟨a, b, hmd⟩
      · rw [hmd] at hf; simp at hf
      · rw [hmd] at hf
        have : f = crop_filter_string a b c d := by simpa using hf
        subst this
        exact not_res_pre_crop _
      · rw [hmd] at hf
        have : f = scale_filter_string a b := by simpa using hf
        subst this
        exact not_res_pre_scale _
  · have : f = "deshake" := by simpa using mem_ite_nil _ _ _ hf
    subst this
    decide

/-- Membership in an ite with empty else branch also gives the condition. -/
theorem mem_ite_nil_cond (c : Prop) [Decidable c] (l : List String) (x : String)
    (h : x ∈ (if c then l else [])) : c ∧ x ∈ l := by
  split at h
  · exact ⟨by assumption, h⟩
  · exact absurd h (List.not_mem_nil x)

/-- No token of the command header is a strip directive, provided the
binary path, the frame rate and the input path are not. -/
theorem header_not_res (o : Opts) (fi : FileInfo) (hbin : ¬ Res o.ffmpegbin)
    (hfr : ¬ Res o.framerate) (hpath : ¬ Res fi.path) :
    ∀ x ∈ header_args o fi, ¬ Res x := by
  intro x hx
  unfold header_args at hx
  have hsec : secondary_inputs o = [] := rfl
  rw [hsec] at hx
  simp only [List.append_nil, List.append_assoc, List.mem_append, List.mem_cons,
    List.mem_singleton, List.not_mem_nil, or_false, false_or] at hx
  rcases hx with rfl | hx | hx | (rfl | rfl) | hx
  · exact hbin
  · have : x = "-y" := by simpa using mem_ite_nil _ _ _ hx
    subst this; decide
  · rcases (by simpa using mem_ite_nil _ _ _ hx :
        x = "-r" ∨ x = o.framerate ∨ x = "-f" ∨ x = "image2") with rfl | rfl | rfl | rfl
    · decide
    · exact hfr
    · decide
    · decide
  · decide
  · exact hpath
  · have : x = "-copy_unknown" := by simpa using mem_ite_nil _ _ _ hx
    subst this; decide

/-- No token of the end-of-encode section is a strip directive, provided
the duration string is not. -/
theorem length_not_res (o : Opts) (hdur : ¬ Res o.duration) :
    ∀ x ∈ length_args o, ¬ Res x := by
  intro x hx
  unfold length_args at hx
  split at hx
  · have : x = "-shortest" := by simpa using hx
    subst this; decide
  · split at hx
    · rcases (by simpa using hx : x = "-t" ∨ x = o.duration) with rfl | rfl
      · decide
      · exact hdur
    · simp at hx

/-- The chapter strip section never contains the metadata directive. -/
theorem chapter_args_no_meta (o : Opts) : ∀ x ∈ chapter_args o, x ≠ "-map_metadata" := by
  intro x hx
  unfold chapter_args at hx
  split at hx
  · rcases (by simpa using hx : x = "-map_chapters" ∨ x = "-1") with rfl | rfl <;> decide
  · simp at hx

/-- The metadata strip section never contains the chapter directive. -/
theorem metadata_args_no_chap (o : Opts) : ∀ x ∈ metadata_args o, x ≠ "-map_chapters" := by
  intro x hx
  unfold metadata_args at hx
  split at hx
  · rcases (by simpa using hx : x = "-map_metadata" ∨ x = "-1") with rfl | rfl <;> decide
  · simp at hx

/-- No token of the attachment section is a strip directive, provided the
attachment path is not. -/
theorem attach_not_res (o : Opts) (hatt : ∀ pth, o.addattach = some pth → ¬ Res pth) :
    ∀ x ∈ attach_args o, ¬ Res x := by
  intro x hx
  unfold attach_args at hx
  cases hadd : o.addattach with
  | none => rw [hadd] at hx; simp at hx
  | some pth =>
    rw [hadd] at hx
    dsimp only at hx
    split at hx
    · rcases (by simpa using hx :
          x = "-attach" ∨ x = pth ∨ x = "-metadata:s:t" ∨ x = "mimetype=" ++ o.attachtype)
        with rfl | rfl | rfl | rfl
      · decide
      · exact hatt _ hadd
      · decide
      · exact not_res_pre_mime _
    · simp at hx

/-- Decomposition of an ok compiled command into its sections. -/
theorem build_command_ok_parts (o : Opts) (fi : FileInfo) (cmd : List String) (out : String)
    (h : build_command o fi = Except.ok (cmd, out)) :
    ∃ mseg vfl w2 h2,
      map_stage o fi = Except.ok mseg ∧
      ((nocopy_bool o (.st .v) = false ∧
        video_filters_from_args o (get_dimensions_from_args o).1
          (get_dimensions_from_args o).2 fi = Except.ok (vfl, w2, h2)) ∨
       (nocopy_bool o (.st .v) = true ∧ vfl = [])) ∧
      cmd = header_args o fi ++ mseg ++ (if vfl ≠ [] then ["-vf", str_join "," vfl] else [])
        ++ length_args o ++ chapter_args o ++ metadata_args o ++ attach_args o ++ [out] := by
  unfold build_command at h
  dsimp only at h
  by_cases hdot : '.' ∈ (basename fi.path).data
  case neg => rw [if_pos hdot] at h; cases h
  case pos =>
    rw [if_neg (not_not_intro hdot)] at h
    obtain ⟨mseg, hm, hA⟩ := ebind_ok_inv _ _ _ h
    try dsimp only at hA
    by_cases hnc : nocopy_bool o (.st .v) = true
    · rw [if_neg (by simp [hnc])] at hA
      rw [epure_eq_ok, ebind_ok] at hA
      try dsimp only at hA
      obtain ⟨outv, ho, hB⟩ := ebind_ok_inv _ _ _ hA
      rw [epure_eq_ok] at hB
      injection hB with hB
      have h1 := congrArg Prod.fst hB
      have h2 := congrArg Prod.snd hB
      dsimp only at h1 h2
      subst h2
      refine ⟨mseg, [], 0, 0, hm, Or.inr ⟨hnc, rfl⟩, ?_⟩
      rw [← h1]
      simp [audio_filters_from_args, ite_self]
    · rw [if_pos (by simp [hnc])] at hA
      obtain ⟨vfres, hvf, hB⟩ := ebind_ok_inv _ _ _ hA
      try dsimp only at hB
      obtain ⟨outv, ho, hC⟩ := ebind_ok_inv _ _ _ hB
      rw [epure_eq_ok] at hC
      injection hC with hC
      have h1 := congrArg Prod.fst hC
      have h2 := congrArg Prod.snd hC
      dsimp only at h1 h2
      subst h2
      refine ⟨mseg, vfres.1, vfres.2.1, vfres.2.2, hm,
        Or.inl ⟨by simpa using hnc, hvf⟩, ?_⟩
      rw [← h1]
      simp [audio_filters_from_args, ite_self]

/-- Claim C10: in every successfully compiled command whose user-supplied
strings (binary path, frame rate, input path, duration, attachment path,
output path token) are not themselves strip directives, the chapter strip
directive appears as an infix exactly when the no-copy option list does not
contain the chapters key, and the metadata strip directive exactly when it
does not contain the metadata key: both are stripped by default and kept
only on explicit request. -/
theorem claim_c10_strip_directives (o : Opts) (fi : FileInfo) (cmd : List String)
    (out : String) (h : build_command o fi = Except.ok (cmd, out))
    (hbin : ¬ Res o.ffmpegbin) (hfr : ¬ Res o.framerate) (hpath : ¬ Res fi.path)
    (hdur : ¬ Res o.duration) (hatt : ∀ p, o.addattach = some p → ¬ Res p)
    (hout : ¬ Res out) :
    (["-map_chapters", "-1"] <:+: cmd ↔ NoCopyKey.chap ∉ o.nocopy) ∧
    (["-map_metadata", "-1"] <:+: cmd ↔ NoCopyKey.mdata ∉ o.nocopy) := by
  obtain ⟨mseg, vfl, w2, hgt2, hm, hvf, hcmd⟩ := build_command_ok_parts o fi cmd out h
  have hmseg : ∀ x ∈ mseg, ¬ Res x := map_stage_aux_not_res o fi _ _ hm
  have hvft : ∀ x ∈ (if vfl ≠ [] then ["-vf", str_join "," vfl] else []), ¬ Res x := by
    intro x hx
    obtain ⟨hne, hx2⟩ := mem_ite_nil_cond _ _ _ hx
    rcases (by simpa using hx2 : x = "-vf" ∨ x = str_join "," vfl) with rfl | rfl
    · decide
    · rcases hvf with ⟨hnc, hvfo⟩ | ⟨hnc, hnil⟩
      · have helem : ∀ f ∈ vfl, ¬ Res f :=
          video_filters_not_res _ _ _ _ _ _ _ hvfo
        intro hres
        rcases hres with hEq | hEq
        · exact str_join_ne ("-map_chapters") (by decide) vfl hne
            (fun f hf hfe => helem f hf (Or.inl hfe)) hEq
        · exact str_join_ne ("-map_metadata") (by decide) vfl hne
            (fun f hf hfe => helem f hf (Or.inr hfe)) hEq
      · exact absurd hnil hne
  have hhd : ∀ x ∈ header_args o fi, ¬ Res x := header_not_res o fi hbin hfr hpath
  have hlen : ∀ x ∈ length_args o, ¬ Res x := length_not_res o hdur
  have hat2 : ∀ x ∈ attach_args o, ¬ Res x := attach_not_res o hatt
  constructor
  · constructor
    · intro hinf
      intro hchap2
      have hca : chapter_args o = [] := by
        simp [chapter_args, nocopy_bool, hchap2]
      have hmem : "-map_chapters" ∈ cmd := hinf.subset (by simp)
      rw [hcmd, hca] at hmem
      have hres : Res ("-map_chapters") := Or.inl rfl
      simp only [List.append_nil, List.append_assoc, List.mem_append,
        List.mem_singleton] at hmem
      rcases hmem with h1 | h1 | h1 | h1 | h1 | h1 | h1
      · exact hhd _ h1 hres
      · exact hmseg _ h1 hres
      · exact hvft _ h1 hres
      · exact hlen _ h1 hres
      · exact metadata_args_no_chap o _ h1 rfl
      · exact hat2 _ h1 hres
      · exact hout (h1 ▸ hres)
    · intro hchap
      have hca : chapter_args o = ["-map_chapters", "-1"] := by
        simp [chapter_args, nocopy_bool, hchap]
      rw [hcmd, hca]
      refine ⟨header_args o fi ++ mseg
        ++ (if vfl ≠ [] then ["-vf", str_join "," vfl] else []) ++ length_args o,
        metadata_args o ++ attach_args o ++ [out], ?_⟩
      simp [List.append_assoc]
  · constructor
    · intro hinf
      intro hmd2
      have hca : metadata_args o = [] := by
        simp [metadata_args, nocopy_bool, hmd2]
      have hmem : "-map_metadata" ∈ cmd := hinf.subset (by simp)
      rw [hcmd, hca] at hmem
      have hres : Res ("-map_metadata") := Or.inr rfl
      simp only [List.append_nil, List.append_assoc, List.mem_append,
        List.mem_singleton] at hmem
      rcases hmem with h1 | h1 | h1 | h1 | h1 | h1 | h1
      · exact hhd _ h1 hres
      · exact hmseg _ h1 hres
      · exact hvft _ h1 hres
      · exact hlen _ h1 hres
      · exact chapter_args_no_meta o _ h1 rfl
      · exact hat2 _ h1 hres
      · exact hout (h1 ▸ hres)
    · intro hmd
      have hca : metadata_args o = ["-map_metadata", "-1"] := by
        simp [metadata_args, nocopy_bool, hmd]
      rw [hcmd, hca]
      refine ⟨header_args o fi ++ mseg
        ++ (if vfl ≠ [] then ["-vf", str_join "," vfl] else []) ++ length_args o
        ++ chapter_args o,
        attach_args o ++ [out], ?_⟩
      simp [List.append_assoc]

/-- Claim C10 witness: the empty option set keeps both strip directives in
the compiled command, and neither pseudo-key is in the no-copy list. -/
theorem claim_c10_strip_directives_witness :
    (["-map_chapters", "-1"] <:+: zero_cmd ↔ NoCopyKey.chap ∉ base_opts.nocopy) ∧
    (["-map_metadata", "-1"] <:+: zero_cmd ↔ NoCopyKey.mdata ∉ base_opts.nocopy) :=
  claim_c10_strip_directives base_opts zero_file zero_cmd "out.mkv" rfl
    (by decide) (by decide) (by decide) (by decide)
    (fun p hp => by simp [base_opts] at hp) (by decide)
